import Mathlib

/-!
Verification development for the minigolf physics kernel (`minigolf.py`).

The kernel is embedded shallowly: pygame's `Vector2` becomes a pair of real
numbers, each Python function becomes a Lean function on that model, and the
in-place mutation of the ball becomes a function returning the updated ball.
Machine floats are modelled by exact real arithmetic.
-/

namespace Minigolf

noncomputable section

/-- Planar vector with real coordinates, modelling `pygame.Vector2`. -/
structure Vec2 where
  x : ℝ
  y : ℝ

instance : Add Vec2 := ⟨fun v w => ⟨v.x + w.x, v.y + w.y⟩⟩

instance : Sub Vec2 := ⟨fun v w => ⟨v.x - w.x, v.y - w.y⟩⟩

instance : SMul ℝ Vec2 := ⟨fun c v => ⟨c * v.x, c * v.y⟩⟩

@[simp] theorem Vec2.add_x (v w : Vec2) : (v + w).x = v.x + w.x := rfl

@[simp] theorem Vec2.add_y (v w : Vec2) : (v + w).y = v.y + w.y := rfl

@[simp] theorem Vec2.sub_x (v w : Vec2) : (v - w).x = v.x - w.x := rfl

@[simp] theorem Vec2.sub_y (v w : Vec2) : (v - w).y = v.y - w.y := rfl

@[simp] theorem Vec2.smul_x (c : ℝ) (v : Vec2) : (c • v).x = c * v.x := rfl

@[simp] theorem Vec2.smul_y (c : ℝ) (v : Vec2) : (c • v).y = c * v.y := rfl

theorem Vec2.ext_iff {v w : Vec2} : v = w ↔ v.x = w.x ∧ v.y = w.y := by
  constructor
  · rintro rfl; exact ⟨rfl, rfl⟩
  · rcases v with ⟨vx, vy⟩
    rcases w with ⟨wx, wy⟩
    rintro ⟨h1, h2⟩
    simp_all

/-- Dot product, modelling `Vector2.dot`. -/
def Vec2.dot (v w : Vec2) : ℝ := v.x * w.x + v.y * w.y

/-- Squared length, modelling `Vector2.length_squared`. -/
def Vec2.lengthSq (v : Vec2) : ℝ := v.dot v

/-- Length, modelling `Vector2.length`. -/
def Vec2.length (v : Vec2) : ℝ := Real.sqrt v.lengthSq

/-- Unit vector in the direction of `v`, modelling `Vector2.normalize`
(total model: the zero vector, on which pygame raises, is sent to zero). -/
def Vec2.normalize (v : Vec2) : Vec2 := (1 / v.length) • v

/-- Reflection about a normal, modelling `Vector2.reflect`: pygame first
normalizes the normal, then returns `v - 2*(v·u)*u`. -/
def Vec2.reflect (v n : Vec2) : Vec2 := v - (2 * v.dot n.normalize) • n.normalize

theorem Vec2.lengthSq_nonneg (v : Vec2) : 0 ≤ v.lengthSq := by
  have hx : 0 ≤ v.x * v.x := mul_self_nonneg _
  have hy : 0 ≤ v.y * v.y := mul_self_nonneg _
  simpa [Vec2.lengthSq, Vec2.dot] using add_nonneg hx hy

theorem Vec2.length_nonneg (v : Vec2) : 0 ≤ v.length := Real.sqrt_nonneg _

theorem Vec2.sq_length (v : Vec2) : v.length * v.length = v.lengthSq := by
  simpa [Vec2.length] using Real.mul_self_sqrt v.lengthSq_nonneg

/-- Translation of `minigolf.py`, lines 62-68: nearest point on the closed segment `[a, b]`
to the point `p`, by clamped projection; a zero-length segment yields `a`. -/
def get_nearest_point_on_segment (p a b : Vec2) : Vec2 :=
  let ab := b - a
  if ab.lengthSq = 0 then a
  else
    let t := (p - a).dot ab / ab.dot ab
    let tc := max 0 (min 1 t)
    a + tc • ab

/-- The ball: position, velocity, radius, friction, previous position
(`minigolf.py`, lines 96-108; the colour field is irrelevant to the physics
and omitted). `Ball.__init__` sets `prev_pos` to a copy of `pos`. -/
structure Ball where
  pos : Vec2
  velocity : Vec2
  radius : ℝ
  friction : ℝ
  prev_pos : Vec2

/-- Translation of `minigolf.py`, lines 112-117 (`Ball.update`): snapshot the previous
position, integrate the position, damp the velocity, snap small velocities
to zero. -/
def Ball.update (b : Ball) (dt : ℝ) : Ball :=
  let prev := b.pos
  let newPos := b.pos + dt • b.velocity
  let dampedVel := (1 - (1 - b.friction) * dt) • b.velocity
  { b with prev_pos := prev, pos := newPos,
           velocity := if dampedVel.length < 0.1 then ⟨0, 0⟩ else dampedVel }

/-- The ball state produced by the mutation branch of
`handle_polygon_collision` (`minigolf.py`, lines 85-91) for one edge. -/
def resolveEdge (ball : Ball) (damping : ℝ) (e : Vec2 × Vec2) : Ball :=
  let nearest := get_nearest_point_on_segment ball.pos e.1 e.2
  let normal := (ball.pos - nearest).normalize
  { ball with pos := nearest + ball.radius • normal,
              velocity := damping • ball.velocity.reflect normal }

/-- The edge loop of `handle_polygon_collision` (`minigolf.py`, lines 76-93),
recursing over the explicit list of edges. -/
def handleEdges (ball : Ball) (damping : ℝ) : List (Vec2 × Vec2) → Ball × Bool
  | [] => (ball, false)
  | e :: rest =>
    let nearest := get_nearest_point_on_segment ball.pos e.1 e.2
    let dist := (ball.pos - nearest).length
    if dist < ball.radius then
      if dist = 0 then handleEdges ball damping rest
      else (resolveEdge ball damping e, true)
    else handleEdges ball damping rest

/-- The edges of the polygon in iteration order: index `i` is paired with
index `(i+1) % n` (`minigolf.py`, lines 76-79). -/
def polygonEdges (pts : List Vec2) : List (Vec2 × Vec2) := pts.zip (pts.rotate 1)

/-- Translation of `minigolf.py`, lines 75-93: resolve the ball against the polygon's edges,
returning the updated ball and whether a collision occurred. -/
def handle_polygon_collision (ball : Ball) (pts : List Vec2) (damping : ℝ) :
    Ball × Bool :=
  handleEdges ball damping (polygonEdges pts)

/-- Circular obstacle (`minigolf.py`, lines 138-148; colour omitted). -/
structure CircleObstacle where
  pos : Vec2
  radius : ℝ
  damping : ℝ

/-- Coefficient `a = d·d` of the swept quadratic (`minigolf.py`, line 177). -/
def qa (o : CircleObstacle) (ball : Ball) : ℝ :=
  (ball.pos - ball.prev_pos).dot (ball.pos - ball.prev_pos)

/-- Coefficient `b = 2*(f·d)` of the swept quadratic (`minigolf.py`, line 178). -/
def qb (o : CircleObstacle) (ball : Ball) : ℝ :=
  2 * (ball.prev_pos - o.pos).dot (ball.pos - ball.prev_pos)

/-- Coefficient `c = f·f - r*r` of the swept quadratic (`minigolf.py`, line 179). -/
def qc (o : CircleObstacle) (ball : Ball) : ℝ :=
  (ball.prev_pos - o.pos).dot (ball.prev_pos - o.pos) -
    (o.radius + ball.radius) * (o.radius + ball.radius)

/-- Discriminant `b*b - 4*a*c` (`minigolf.py`, line 181). -/
def qdisc (o : CircleObstacle) (ball : Ball) : ℝ :=
  qb o ball * qb o ball - 4 * qa o ball * qc o ball

/-- First root `(-b - √disc)/(2a)` (`minigolf.py`, line 186). -/
def qt1 (o : CircleObstacle) (ball : Ball) : ℝ :=
  (-qb o ball - Real.sqrt (qdisc o ball)) / (2 * qa o ball)

/-- Second root `(-b + √disc)/(2a)` (`minigolf.py`, line 187). -/
def qt2 (o : CircleObstacle) (ball : Ball) : ℝ :=
  (-qb o ball + Real.sqrt (qdisc o ball)) / (2 * qa o ball)

/-- The ball state produced by the swept-collision resolution at time `t`
(`minigolf.py`, lines 196-204): the collision point is `start + d*t`, the
normal points from the obstacle centre to it, the ball is repositioned to
`center + normal * (R + r) * 1.0001` and its velocity is reflected about the
normal and scaled by the obstacle's damping. -/
def sweptResolve (o : CircleObstacle) (ball : Ball) (t : ℝ) : Ball :=
  let start := ball.prev_pos
  let d := ball.pos - start
  let cp := start + t • d
  let normal := (cp - o.pos).normalize
  { ball with pos := o.pos + ((o.radius + ball.radius) * 1.0001) • normal,
              velocity := o.damping • ball.velocity.reflect normal }

/-- Translation of `minigolf.py`, lines 158-204 (`CircleObstacle.collide`): swept
circle-circle collision.  `start` is the ball's previous position (a `Ball`
always has `prev_pos`, set in `__init__`).  If the frame displacement is
tiny, a static overlap test runs; otherwise the time-of-impact quadratic is
solved, `t1` is preferred if it lies in `[0,1]`, else `t2`, and the collision
is resolved at the chosen time. -/
def CircleObstacle.collide (o : CircleObstacle) (ball : Ball) (dt : ℝ) : Ball :=
  let start := ball.prev_pos
  let d := ball.pos - start
  if d.lengthSq < 1e-8 then
    if (ball.pos - o.pos).length < o.radius + ball.radius then
      if 0 < (ball.pos - o.pos).length then
        let normal := (ball.pos - o.pos).normalize
        { ball with pos := o.pos + (o.radius + ball.radius) • normal,
                    velocity := o.damping • ball.velocity.reflect normal }
      else ball
    else ball
  else
    if qdisc o ball < 0 then ball
    else
      let t1 := qt1 o ball
      let t2 := qt2 o ball
      let t := if 0 ≤ t1 ∧ t1 ≤ 1 then t1 else if 0 ≤ t2 ∧ t2 ≤ 1 then t2 else -1
      if 0 ≤ t ∧ t ≤ 1 then sweptResolve o ball t else ball

/-- One simulation tick on the ball, in the order of the main loop
(`minigolf.py`, lines 338-344): integrate, then collide with each obstacle in
order, then resolve the boundary polygon. -/
def simTick (obstacles : List CircleObstacle) (pts : List Vec2)
    (damping dt : ℝ) (b : Ball) : Ball :=
  let b1 := b.update dt
  let b2 := obstacles.foldl (fun bb o => o.collide bb dt) b1
  (handle_polygon_collision b2 pts damping).1

/-- The condition under which the edge loop of `handle_polygon_collision`
mutates the ball at edge `e` (`minigolf.py`, lines 82-84): the nearest point
of the edge is strictly closer than the ball's radius, and not at distance
exactly zero. -/
def edgeHits (b : Ball) (e : Vec2 × Vec2) : Prop :=
  (b.pos - get_nearest_point_on_segment b.pos e.1 e.2).length < b.radius ∧
  (b.pos - get_nearest_point_on_segment b.pos e.1 e.2).length ≠ 0

/-- The condition under which `CircleObstacle.collide` mutates the ball,
read off the branch structure of `minigolf.py`, lines 164-204: either the
static overlap test fires, or the swept quadratic has a root chosen
in `[0,1]`. -/
def circleCollides (o : CircleObstacle) (b : Ball) : Prop :=
  ((b.pos - b.prev_pos).lengthSq < 1e-8 ∧
    (b.pos - o.pos).length < o.radius + b.radius ∧ 0 < (b.pos - o.pos).length) ∨
  (¬ (b.pos - b.prev_pos).lengthSq < 1e-8 ∧ ¬ qdisc o b < 0 ∧
    ((0 ≤ qt1 o b ∧ qt1 o b ≤ 1) ∨ (0 ≤ qt2 o b ∧ qt2 o b ≤ 1)))

/-- Rest state of the ball with respect to a course: zero velocity, previous
position equal to the current one, and clearance of at least the relevant
radius from every boundary edge and every obstacle. -/
def restState (b : Ball) (obstacles : List CircleObstacle) (pts : List Vec2) :
    Prop :=
  b.velocity = ⟨0, 0⟩ ∧ b.prev_pos = b.pos ∧
  (∀ e ∈ polygonEdges pts,
    b.radius ≤ (b.pos - get_nearest_point_on_segment b.pos e.1 e.2).length) ∧
  (∀ o ∈ obstacles, o.radius + b.radius ≤ (b.pos - o.pos).length)

/-! ### Basic vector lemmas -/

theorem sqrt_eval {a b : ℝ} (hb : 0 ≤ b) (h : b * b = a) : Real.sqrt a = b := by
  rw [← h]
  exact Real.sqrt_mul_self hb

theorem Vec2.lengthSq_eq_zero_iff {v : Vec2} : v.lengthSq = 0 ↔ v = ⟨0, 0⟩ := by
  rcases v with ⟨vx, vy⟩
  simp only [Vec2.lengthSq, Vec2.dot, Vec2.ext_iff]
  constructor
  · intro h
    constructor <;> nlinarith [mul_self_nonneg vx, mul_self_nonneg vy]
  · rintro ⟨h1, h2⟩
    simp_all

theorem Vec2.length_eq_zero_iff {v : Vec2} : v.length = 0 ↔ v.lengthSq = 0 := by
  rw [Vec2.length, Real.sqrt_eq_zero v.lengthSq_nonneg]

theorem Vec2.smul_assoc (c d : ℝ) (v : Vec2) : c • (d • v) = (c * d) • v := by
  simp [Vec2.ext_iff, mul_assoc]

theorem Vec2.lengthSq_smul (c : ℝ) (v : Vec2) :
    (c • v).lengthSq = c ^ 2 * v.lengthSq := by
  simp only [Vec2.lengthSq, Vec2.dot, Vec2.smul_x, Vec2.smul_y]
  ring

theorem Vec2.length_smul (c : ℝ) (v : Vec2) : (c • v).length = |c| * v.length := by
  rw [Vec2.length, Vec2.lengthSq_smul, Real.sqrt_mul (sq_nonneg c),
    Real.sqrt_sq_eq_abs, Vec2.length]

theorem Vec2.length_smul_of_nonneg {c : ℝ} (hc : 0 ≤ c) (v : Vec2) :
    (c • v).length = c * v.length := by
  rw [Vec2.length_smul, abs_of_nonneg hc]

theorem Vec2.lengthSq_normalize {v : Vec2} (hv : v.length ≠ 0) :
    v.normalize.lengthSq = 1 := by
  have hsq : v.lengthSq ≠ 0 := fun h => hv (Vec2.length_eq_zero_iff.2 h)
  rw [Vec2.normalize, Vec2.lengthSq_smul, div_pow, one_pow, sq, Vec2.sq_length]
  field_simp

theorem Vec2.length_normalize {v : Vec2} (hv : v.length ≠ 0) :
    v.normalize.length = 1 := by
  have h := Vec2.lengthSq_normalize hv
  rw [Vec2.length, h, Real.sqrt_one]

theorem Vec2.normalize_of_length_zero {v : Vec2} (hv : v.length = 0) :
    v.normalize = ⟨0, 0⟩ := by
  have h : v = ⟨0, 0⟩ := Vec2.lengthSq_eq_zero_iff.1 (Vec2.length_eq_zero_iff.1 hv)
  subst h
  simp [Vec2.normalize, Vec2.ext_iff]

theorem Vec2.lengthSq_reflect (v n : Vec2) :
    (v.reflect n).lengthSq = v.lengthSq := by
  by_cases hn : n.length = 0
  · rw [Vec2.reflect, Vec2.normalize_of_length_zero hn]
    rcases v with ⟨vx, vy⟩
    simp [Vec2.lengthSq, Vec2.dot]
  · have hu : n.normalize.lengthSq = 1 := Vec2.lengthSq_normalize hn
    rcases v with ⟨vx, vy⟩
    rcases hnn : n.normalize with ⟨ux, uy⟩
    rw [hnn] at hu
    simp only [Vec2.lengthSq, Vec2.dot] at hu ⊢
    simp only [Vec2.reflect, hnn, Vec2.lengthSq, Vec2.dot, Vec2.sub_x, Vec2.sub_y,
      Vec2.smul_x, Vec2.smul_y]
    linear_combination (4 * (vx * ux + vy * uy) ^ 2) * hu

theorem Vec2.length_reflect (v n : Vec2) : (v.reflect n).length = v.length := by
  rw [Vec2.length, Vec2.lengthSq_reflect, Vec2.length]

/-! ### The edge loop of `handle_polygon_collision` -/

theorem handleEdges_nil (b : Ball) (k : ℝ) : handleEdges b k [] = (b, false) := rfl

theorem handleEdges_cons (b : Ball) (k : ℝ) (e : Vec2 × Vec2)
    (rest : List (Vec2 × Vec2)) :
    handleEdges b k (e :: rest) =
      if (b.pos - get_nearest_point_on_segment b.pos e.1 e.2).length < b.radius then
        if (b.pos - get_nearest_point_on_segment b.pos e.1 e.2).length = 0 then
          handleEdges b k rest
        else (resolveEdge b k e, true)
      else handleEdges b k rest := rfl

theorem handleEdges_of_no_hit (b : Ball) (k : ℝ) :
    ∀ L : List (Vec2 × Vec2), (∀ e ∈ L, ¬ edgeHits b e) →
      handleEdges b k L = (b, false) := by
  intro L
  induction L with
  | nil => intro _; rfl
  | cons e rest ih =>
    intro h
    have he := h e (List.mem_cons_self e rest)
    have hrest : ∀ e' ∈ rest, ¬ edgeHits b e' :=
      fun e' he' => h e' (List.mem_cons_of_mem _ he')
    rw [handleEdges_cons]
    by_cases h1 :
        (b.pos - get_nearest_point_on_segment b.pos e.1 e.2).length < b.radius
    · rw [if_pos h1]
      by_cases h2 :
          (b.pos - get_nearest_point_on_segment b.pos e.1 e.2).length = 0
      · rw [if_pos h2]
        exact ih hrest
      · exact absurd ⟨h1, h2⟩ he
    · rw [if_neg h1]
      exact ih hrest

theorem handleEdges_first_hit (b : Ball) (k : ℝ) :
    ∀ (pre : List (Vec2 × Vec2)) (e : Vec2 × Vec2) (post : List (Vec2 × Vec2)),
      (∀ e' ∈ pre, ¬ edgeHits b e') → edgeHits b e →
      handleEdges b k (pre ++ e :: post) = (resolveEdge b k e, true) := by
  intro pre
  induction pre with
  | nil =>
    intro e post _ he
    rw [List.nil_append, handleEdges_cons, if_pos he.1, if_neg he.2]
  | cons e0 pre ih =>
    intro e post hpre he
    have h0 := hpre e0 (List.mem_cons_self e0 pre)
    have hpre' : ∀ e' ∈ pre, ¬ edgeHits b e' :=
      fun e' he' => hpre e' (List.mem_cons_of_mem _ he')
    rw [List.cons_append, handleEdges_cons]
    by_cases h1 :
        (b.pos - get_nearest_point_on_segment b.pos e0.1 e0.2).length < b.radius
    · rw [if_pos h1]
      by_cases h2 :
          (b.pos - get_nearest_point_on_segment b.pos e0.1 e0.2).length = 0
      · rw [if_pos h2]
        exact ih e post hpre' he
      · exact absurd ⟨h1, h2⟩ h0
    · rw [if_neg h1]
      exact ih e post hpre' he

theorem handleEdges_true (b : Ball) (k : ℝ) :
    ∀ (L : List (Vec2 × Vec2)) (b' : Ball), handleEdges b k L = (b', true) →
      ∃ e ∈ L, edgeHits b e ∧ b' = resolveEdge b k e := by
  intro L
  induction L with
  | nil =>
    intro b' h
    rw [handleEdges_nil, Prod.mk.injEq] at h
    exact absurd h.2 (by simp)
  | cons e rest ih =>
    intro b' h
    rw [handleEdges_cons] at h
    by_cases h1 :
        (b.pos - get_nearest_point_on_segment b.pos e.1 e.2).length < b.radius
    · rw [if_pos h1] at h
      by_cases h2 :
          (b.pos - get_nearest_point_on_segment b.pos e.1 e.2).length = 0
      · rw [if_pos h2] at h
        obtain ⟨e', he', hh⟩ := ih b' h
        exact ⟨e', List.mem_cons_of_mem _ he', hh⟩
      · rw [if_neg h2, Prod.mk.injEq] at h
        exact ⟨e, List.mem_cons_self e rest, ⟨h1, h2⟩, h.1.symm⟩
    · rw [if_neg h1] at h
      obtain ⟨e', he', hh⟩ := ih b' h
      exact ⟨e', List.mem_cons_of_mem _ he', hh⟩

theorem handleEdges_frame (b : Ball) (k : ℝ) :
    ∀ L : List (Vec2 × Vec2),
      (handleEdges b k L).1.prev_pos = b.prev_pos ∧
      (handleEdges b k L).1.radius = b.radius ∧
      (handleEdges b k L).1.friction = b.friction := by
  intro L
  induction L with
  | nil => exact ⟨rfl, rfl, rfl⟩
  | cons e rest ih =>
    rw [handleEdges_cons]
    by_cases h1 :
        (b.pos - get_nearest_point_on_segment b.pos e.1 e.2).length < b.radius
    · rw [if_pos h1]
      by_cases h2 :
          (b.pos - get_nearest_point_on_segment b.pos e.1 e.2).length = 0
      · rw [if_pos h2]; exact ih
      · rw [if_neg h2]; exact ⟨rfl, rfl, rfl⟩
    · rw [if_neg h1]; exact ih

/-! ### Nearest-point stability under pushing out along the normal -/

theorem get_nearest_zero_case (p a bb : Vec2) (h : (bb - a).lengthSq = 0) :
    get_nearest_point_on_segment p a bb = a := by
  rw [get_nearest_point_on_segment, if_pos h]

theorem get_nearest_pos_case (p a bb : Vec2) (h : ¬ (bb - a).lengthSq = 0) :
    get_nearest_point_on_segment p a bb =
      a + (max 0 (min 1 ((p - a).dot (bb - a) / (bb - a).dot (bb - a)))) •
        (bb - a) := by
  rw [get_nearest_point_on_segment, if_neg h]

/-- Clamping to `[0,1]` is unchanged by moving the parameter from its clamped
value towards the unclamped one by a positive factor. -/
theorem clamp_fixed (u lam : ℝ) (hlam : 0 < lam) :
    max 0 (min 1 (max 0 (min 1 u) + lam * (u - max 0 (min 1 u)))) =
      max 0 (min 1 u) := by
  rcases le_or_lt u 0 with h | h
  · have h1 : min 1 u = u := min_eq_right (h.trans zero_le_one)
    have h2 : max 0 u = 0 := max_eq_left h
    rw [h1, h2]
    have h3 : lam * (u - 0) ≤ 0 :=
      mul_nonpos_iff.2 (Or.inl ⟨hlam.le, by linarith⟩)
    rw [min_eq_right (by linarith : (0:ℝ) + lam * (u - 0) ≤ 1)]
    exact max_eq_left (by linarith)
  · rcases le_or_lt u 1 with h1 | h1
    · have h2 : min 1 u = u := min_eq_right h1
      have h3 : max 0 u = u := max_eq_right h.le
      rw [h2, h3, show u + lam * (u - u) = u by ring, h2]
      exact h3
    · have h2 : min 1 u = 1 := min_eq_left h1.le
      rw [h2, max_eq_right (zero_le_one : (0:ℝ) ≤ 1)]
      rw [min_eq_left (by nlinarith : (1:ℝ) ≤ 1 + lam * (u - 1))]
      norm_num

/-- Polynomial identity: projection numerator of the pushed point. -/
theorem dot_push (p a ab : Vec2) (t0 lam : ℝ) :
    ((a + t0 • ab + lam • (p - (a + t0 • ab))) - a).dot ab =
      t0 * ab.dot ab + lam * ((p - a).dot ab) - lam * (t0 * ab.dot ab) := by
  rcases p with ⟨px, py⟩
  rcases a with ⟨ax, ay⟩
  rcases ab with ⟨wx, wy⟩
  simp only [Vec2.dot, Vec2.sub_x, Vec2.sub_y, Vec2.add_x, Vec2.add_y,
    Vec2.smul_x, Vec2.smul_y]
  ring

/-- Field identity: projection parameter of the pushed point. -/
theorem div_push (t0 lam X S : ℝ) (hS : S ≠ 0) :
    (t0 * S + lam * X - lam * (t0 * S)) / S = t0 + lam * (X / S - t0) := by
  field_simp
  ring

/-- Moving a point from its segment projection outward along the line through
the projection by a positive factor does not change its nearest point on the
segment. -/
theorem nearest_of_pushed (p a bb : Vec2) (lam : ℝ) (hlam : 0 < lam) :
    get_nearest_point_on_segment
        (get_nearest_point_on_segment p a bb +
          lam • (p - get_nearest_point_on_segment p a bb)) a bb =
      get_nearest_point_on_segment p a bb := by
  by_cases h0 : (bb - a).lengthSq = 0
  · rw [get_nearest_zero_case p a bb h0]
    rw [get_nearest_zero_case _ a bb h0]
  · have hS : (bb - a).dot (bb - a) ≠ 0 := by
      simpa [Vec2.lengthSq] using h0
    rw [get_nearest_pos_case p a bb h0]
    rw [get_nearest_pos_case _ a bb h0]
    rw [dot_push, div_push _ _ _ _ hS,
      clamp_fixed ((p - a).dot (bb - a) / (bb - a).dot (bb - a)) lam hlam]

theorem Vec2.add_sub_cancel_left (v w : Vec2) : (v + w) - v = w := by
  rcases v with ⟨vx, vy⟩
  rcases w with ⟨wx, wy⟩
  simp [Vec2.ext_iff]

/-- Evaluation helper: nearest point of the square's bottom edge to `(5,1)`. -/
theorem square_near_eval :
    get_nearest_point_on_segment ⟨5, 1⟩ ⟨0, 0⟩ ⟨10, 0⟩ = ⟨5, 0⟩ := by
  rw [get_nearest_point_on_segment]
  norm_num [Vec2.lengthSq, Vec2.dot, Vec2.ext_iff, min_def, max_def]

/-- Evaluation helper: the concrete ball at `(5,1)` with radius 2 hits the
bottom edge of the `10 × 10` square. -/
theorem square_hit :
    edgeHits ⟨⟨5, 1⟩, ⟨0, 0⟩, 2, 0, ⟨5, 1⟩⟩ ((⟨0, 0⟩, ⟨10, 0⟩) : Vec2 × Vec2) := by
  unfold edgeHits
  dsimp only
  rw [square_near_eval]
  rw [show (⟨5, 1⟩ : Vec2) - ⟨5, 0⟩ = ⟨0, 1⟩ from by simp [Vec2.ext_iff]]
  rw [show (⟨0, 1⟩ : Vec2).length = 1 from by
    rw [Vec2.length]
    norm_num [Vec2.lengthSq, Vec2.dot]]
  norm_num

/-! ### Claim C5 -/

/-- C5: whenever `handle_polygon_collision` returns `true`, the distance from
the ball's new position to the resolved edge — its nearest point on the
closed segment, clamped endpoints included — equals the ball's radius. -/
theorem polygon_containment_radius (b : Ball) (pts : List Vec2) (k : ℝ)
    (b' : Ball) (h : handle_polygon_collision b pts k = (b', true)) :
    ∃ e ∈ polygonEdges pts, edgeHits b e ∧ b' = resolveEdge b k e ∧
      (b'.pos - get_nearest_point_on_segment b'.pos e.1 e.2).length =
        b.radius := by
  obtain ⟨e, he, hhit, hb'⟩ := handleEdges_true b k (polygonEdges pts) b' h
  refine ⟨e, he, hhit, hb', ?_⟩
  subst hb'
  obtain ⟨hlt, hne⟩ := hhit
  have hd0 : 0 < (b.pos - get_nearest_point_on_segment b.pos e.1 e.2).length :=
    lt_of_le_of_ne (Vec2.length_nonneg _) (Ne.symm hne)
  have hlam :
      0 < b.radius *
        (1 / (b.pos - get_nearest_point_on_segment b.pos e.1 e.2).length) := by
    have hrad : 0 < b.radius := lt_trans hd0 hlt
    positivity
  have hpos : (resolveEdge b k e).pos =
      get_nearest_point_on_segment b.pos e.1 e.2 +
        (b.radius *
          (1 / (b.pos - get_nearest_point_on_segment b.pos e.1 e.2).length)) •
          (b.pos - get_nearest_point_on_segment b.pos e.1 e.2) := by
    rw [resolveEdge]
    dsimp only
    rw [Vec2.normalize, Vec2.smul_assoc]
  rw [hpos, nearest_of_pushed b.pos e.1 e.2 _ hlam, Vec2.add_sub_cancel_left,
    Vec2.length_smul_of_nonneg hlam.le]
  field_simp

/-- Witness for C5: the concrete square course; after the bounce the ball
sits at distance exactly its radius from the bottom edge. -/
theorem polygon_containment_radius_witness :
    handle_polygon_collision ⟨⟨5, 1⟩, ⟨0, 0⟩, 2, 0, ⟨5, 1⟩⟩
        [⟨0, 0⟩, ⟨10, 0⟩, ⟨10, 10⟩, ⟨0, 10⟩] (1 / 2) =
      (resolveEdge ⟨⟨5, 1⟩, ⟨0, 0⟩, 2, 0, ⟨5, 1⟩⟩ (1 / 2) (⟨0, 0⟩, ⟨10, 0⟩),
        true) ∧
    ∃ e ∈ polygonEdges [⟨0, 0⟩, ⟨10, 0⟩, ⟨10, 10⟩, ⟨0, 10⟩],
      edgeHits ⟨⟨5, 1⟩, ⟨0, 0⟩, 2, 0, ⟨5, 1⟩⟩ e ∧
      resolveEdge ⟨⟨5, 1⟩, ⟨0, 0⟩, 2, 0, ⟨5, 1⟩⟩ (1 / 2) (⟨0, 0⟩, ⟨10, 0⟩) =
        resolveEdge ⟨⟨5, 1⟩, ⟨0, 0⟩, 2, 0, ⟨5, 1⟩⟩ (1 / 2) e ∧
      ((resolveEdge ⟨⟨5, 1⟩, ⟨0, 0⟩, 2, 0, ⟨5, 1⟩⟩ (1 / 2)
            (⟨0, 0⟩, ⟨10, 0⟩)).pos -
          get_nearest_point_on_segment
            (resolveEdge ⟨⟨5, 1⟩, ⟨0, 0⟩, 2, 0, ⟨5, 1⟩⟩ (1 / 2)
              (⟨0, 0⟩, ⟨10, 0⟩)).pos e.1 e.2).length =
        (Ball.mk ⟨5, 1⟩ ⟨0, 0⟩ 2 0 ⟨5, 1⟩).radius := by
  have hconc : handle_polygon_collision ⟨⟨5, 1⟩, ⟨0, 0⟩, 2, 0, ⟨5, 1⟩⟩
      [⟨0, 0⟩, ⟨10, 0⟩, ⟨10, 10⟩, ⟨0, 10⟩] (1 / 2) =
      (resolveEdge ⟨⟨5, 1⟩, ⟨0, 0⟩, 2, 0, ⟨5, 1⟩⟩ (1 / 2) (⟨0, 0⟩, ⟨10, 0⟩),
        true) :=
    handleEdges_first_hit ⟨⟨5, 1⟩, ⟨0, 0⟩, 2, 0, ⟨5, 1⟩⟩ (1 / 2) []
      (⟨0, 0⟩, ⟨10, 0⟩)
      [(⟨10, 0⟩, ⟨10, 10⟩), (⟨10, 10⟩, ⟨0, 10⟩), (⟨0, 10⟩, ⟨0, 0⟩)]
      (fun e' h => absurd h (List.not_mem_nil e')) square_hit
  exact ⟨hconc, polygon_containment_radius _ _ _ _ hconc⟩

/-! ### Quadratic root analysis for the swept test -/

theorem quad_disc_of_root {a b c s : ℝ} (h : a * (s * s) + b * s + c = 0) :
    b * b - 4 * a * c = (2 * a * s + b) ^ 2 := by
  linear_combination (-4 * a) * h

theorem quad_root_eq_or {a b c s : ℝ} (ha : a ≠ 0)
    (h : a * (s * s) + b * s + c = 0) :
    s = (-b - Real.sqrt (b * b - 4 * a * c)) / (2 * a) ∨
    s = (-b + Real.sqrt (b * b - 4 * a * c)) / (2 * a) := by
  rw [quad_disc_of_root h, Real.sqrt_sq_eq_abs]
  rcases abs_cases (2 * a * s + b) with ⟨heq, _⟩ | ⟨heq, _⟩
  · right
    rw [heq]
    field_simp
  · left
    rw [heq]
    field_simp

theorem quad_eval_root {a b c q e : ℝ} (ha : a ≠ 0) (hq : q * q = b * b - 4 * a * c)
    (he : e * e = q * q) :
    a * (((-b + e) / (2 * a)) * ((-b + e) / (2 * a))) +
      b * ((-b + e) / (2 * a)) + c = 0 := by
  have h2a : (2 * a) ≠ 0 := mul_ne_zero two_ne_zero ha
  have ht : (-b + e) / (2 * a) * (2 * a) = -b + e := div_mul_cancel₀ _ h2a
  have e1 : (2 * a) ^ 2 * (a * (((-b + e) / (2 * a)) * ((-b + e) / (2 * a))) +
      b * ((-b + e) / (2 * a)) + c) =
      a * (((-b + e) / (2 * a) * (2 * a)) * ((-b + e) / (2 * a) * (2 * a))) +
        2 * a * b * ((-b + e) / (2 * a) * (2 * a)) + 4 * a ^ 2 * c := by
    ring
  have key : (2 * a) ^ 2 * (a * (((-b + e) / (2 * a)) * ((-b + e) / (2 * a))) +
      b * ((-b + e) / (2 * a)) + c) = 0 := by
    rw [e1, ht]
    have he2 : e * e = b * b - 4 * a * c := he.trans hq
    linear_combination a * he2
  exact (mul_eq_zero.1 key).resolve_left (pow_ne_zero 2 h2a)

theorem quad_root_formula1 {a b c : ℝ} (ha : a ≠ 0)
    (hdisc : 0 ≤ b * b - 4 * a * c) :
    a * (((-b - Real.sqrt (b * b - 4 * a * c)) / (2 * a)) *
        ((-b - Real.sqrt (b * b - 4 * a * c)) / (2 * a))) +
      b * ((-b - Real.sqrt (b * b - 4 * a * c)) / (2 * a)) + c = 0 := by
  have hq : Real.sqrt (b * b - 4 * a * c) * Real.sqrt (b * b - 4 * a * c) =
      b * b - 4 * a * c := Real.mul_self_sqrt hdisc
  have h := quad_eval_root ha hq
      (e := -Real.sqrt (b * b - 4 * a * c)) (by ring)
  rw [show -b + -Real.sqrt (b * b - 4 * a * c) =
    -b - Real.sqrt (b * b - 4 * a * c) by ring] at h
  exact h

theorem quad_root_formula2 {a b c : ℝ} (ha : a ≠ 0)
    (hdisc : 0 ≤ b * b - 4 * a * c) :
    a * (((-b + Real.sqrt (b * b - 4 * a * c)) / (2 * a)) *
        ((-b + Real.sqrt (b * b - 4 * a * c)) / (2 * a))) +
      b * ((-b + Real.sqrt (b * b - 4 * a * c)) / (2 * a)) + c = 0 := by
  have hq : Real.sqrt (b * b - 4 * a * c) * Real.sqrt (b * b - 4 * a * c) =
      b * b - 4 * a * c := Real.mul_self_sqrt hdisc
  exact quad_eval_root ha hq (e := Real.sqrt (b * b - 4 * a * c)) rfl

/-- The swept quadratic at parameter `s` measures the squared distance of the
interpolated centre to the obstacle centre, minus the squared combined
radius. -/
theorem circle_root_eq (o : CircleObstacle) (b : Ball) (s : ℝ) :
    qa o b * (s * s) + qb o b * s + qc o b =
      (b.prev_pos + s • (b.pos - b.prev_pos) - o.pos).lengthSq -
        (o.radius + b.radius) * (o.radius + b.radius) := by
  rcases b with ⟨⟨px, py⟩, v, r, fr, ⟨wx, wy⟩⟩
  rcases o with ⟨⟨cx, cy⟩, R, k⟩
  simp only [qa, qb, qc, Vec2.lengthSq, Vec2.dot, Vec2.sub_x, Vec2.sub_y,
    Vec2.add_x, Vec2.add_y, Vec2.smul_x, Vec2.smul_y]
  ring

theorem qa_pos (o : CircleObstacle) (b : Ball)
    (hd : ¬ (b.pos - b.prev_pos).lengthSq < 1e-8) : 0 < qa o b := by
  have h1 : (1e-8 : ℝ) ≤ (b.pos - b.prev_pos).lengthSq := not_lt.1 hd
  have h2 : qa o b = (b.pos - b.prev_pos).lengthSq := rfl
  rw [h2]
  have h3 : (0 : ℝ) < 1e-8 := by norm_num
  linarith

theorem qdisc_expand (o : CircleObstacle) (b : Ball) :
    qdisc o b = qb o b * qb o b - 4 * qa o b * qc o b := rfl

theorem qt1_expand (o : CircleObstacle) (b : Ball) :
    qt1 o b = (-qb o b - Real.sqrt (qb o b * qb o b - 4 * qa o b * qc o b)) /
      (2 * qa o b) := rfl

theorem qt2_expand (o : CircleObstacle) (b : Ball) :
    qt2 o b = (-qb o b + Real.sqrt (qb o b * qb o b - 4 * qa o b * qc o b)) /
      (2 * qa o b) := rfl

/-- Branch characterization of `CircleObstacle.collide` in the moving case:
the earliest root in `[0,1]` (preferring `t1`) is resolved, otherwise the
ball is untouched. -/
theorem collide_swept (o : CircleObstacle) (b : Ball) (dt : ℝ)
    (hd : ¬ (b.pos - b.prev_pos).lengthSq < 1e-8) (hdisc : ¬ qdisc o b < 0) :
    o.collide b dt =
      if 0 ≤ qt1 o b ∧ qt1 o b ≤ 1 then sweptResolve o b (qt1 o b)
      else if 0 ≤ qt2 o b ∧ qt2 o b ≤ 1 then sweptResolve o b (qt2 o b)
      else b := by
  rw [CircleObstacle.collide]
  rw [if_neg hd, if_neg hdisc]
  dsimp only
  by_cases h1 : 0 ≤ qt1 o b ∧ qt1 o b ≤ 1
  · rw [if_pos h1, if_pos h1, if_pos h1]
  · rw [if_neg h1, if_neg h1]
    by_cases h2 : 0 ≤ qt2 o b ∧ qt2 o b ≤ 1
    · rw [if_pos h2, if_pos h2]
    · rw [if_neg h2, if_neg h2,
        if_neg (by norm_num : ¬ ((0:ℝ) ≤ -1 ∧ (-1:ℝ) ≤ 1))]

/-! ### Claim C2 -/

/-- C2: in the general (moving) case with nonnegative discriminant,
`CircleObstacle.collide` picks `t1 = (-b - √disc)/(2a)` if it lies in
`[0,1]`, else `t2 = (-b + √disc)/(2a)` if that lies in `[0,1]` (the earliest
in-range root, since `t1 ≤ t2` for `a > 0`); at the chosen `t` it repositions
the ball to `center + normal * r * 1.0001` where `normal` is the normalized
vector from the centre to the collision point `start + d*t`, and sets the
velocity to the reflection of the old velocity about that normal scaled by
the obstacle's damping; if neither root is in range the ball is unchanged. -/
theorem collide_general_case (o : CircleObstacle) (b : Ball) (dt : ℝ)
    (hd : ¬ (b.pos - b.prev_pos).lengthSq < 1e-8) (hdisc : ¬ qdisc o b < 0) :
    ((0 ≤ qt1 o b ∧ qt1 o b ≤ 1) →
      o.collide b dt = { b with
        pos := o.pos + ((o.radius + b.radius) * 1.0001) •
          (b.prev_pos + qt1 o b • (b.pos - b.prev_pos) - o.pos).normalize,
        velocity := o.damping • b.velocity.reflect
          ((b.prev_pos + qt1 o b • (b.pos - b.prev_pos) - o.pos).normalize) }) ∧
    (¬ (0 ≤ qt1 o b ∧ qt1 o b ≤ 1) → (0 ≤ qt2 o b ∧ qt2 o b ≤ 1) →
      o.collide b dt = { b with
        pos := o.pos + ((o.radius + b.radius) * 1.0001) •
          (b.prev_pos + qt2 o b • (b.pos - b.prev_pos) - o.pos).normalize,
        velocity := o.damping • b.velocity.reflect
          ((b.prev_pos + qt2 o b • (b.pos - b.prev_pos) - o.pos).normalize) }) ∧
    (¬ (0 ≤ qt1 o b ∧ qt1 o b ≤ 1) → ¬ (0 ≤ qt2 o b ∧ qt2 o b ≤ 1) →
      o.collide b dt = b) := by
  rw [collide_swept o b dt hd hdisc]
  refine ⟨?_, ?_, ?_⟩
  · intro h1
    rw [if_pos h1]
    rfl
  · intro h1 h2
    rw [if_neg h1, if_pos h2]
    rfl
  · intro h1 h2
    rw [if_neg h1, if_neg h2]

/-- Witness for C2: obstacle at `(5,0)` with radius 2, ball of radius 1
travelling from `(0,0)` to `(10,0)`; `t1 = 1/5` is chosen and resolved. -/
theorem collide_general_case_witness :
    ¬ ((Ball.mk ⟨10, 0⟩ ⟨0, 0⟩ 1 0 ⟨0, 0⟩).pos -
        (Ball.mk ⟨10, 0⟩ ⟨0, 0⟩ 1 0 ⟨0, 0⟩).prev_pos).lengthSq < 1e-8 ∧
    ¬ qdisc ⟨⟨5, 0⟩, 2, 1 / 2⟩ ⟨⟨10, 0⟩, ⟨0, 0⟩, 1, 0, ⟨0, 0⟩⟩ < 0 ∧
    (0 ≤ qt1 ⟨⟨5, 0⟩, 2, 1 / 2⟩ ⟨⟨10, 0⟩, ⟨0, 0⟩, 1, 0, ⟨0, 0⟩⟩ ∧
      qt1 ⟨⟨5, 0⟩, 2, 1 / 2⟩ ⟨⟨10, 0⟩, ⟨0, 0⟩, 1, 0, ⟨0, 0⟩⟩ ≤ 1) ∧
    CircleObstacle.collide ⟨⟨5, 0⟩, 2, 1 / 2⟩ ⟨⟨10, 0⟩, ⟨0, 0⟩, 1, 0, ⟨0, 0⟩⟩ 1 =
      { Ball.mk ⟨10, 0⟩ ⟨0, 0⟩ 1 0 ⟨0, 0⟩ with
        pos := (⟨5, 0⟩ : Vec2) +
          (((⟨⟨5, 0⟩, 2, 1 / 2⟩ : CircleObstacle).radius +
              (Ball.mk ⟨10, 0⟩ ⟨0, 0⟩ 1 0 ⟨0, 0⟩).radius) * 1.0001) •
            ((⟨0, 0⟩ : Vec2) +
              qt1 ⟨⟨5, 0⟩, 2, 1 / 2⟩ ⟨⟨10, 0⟩, ⟨0, 0⟩, 1, 0, ⟨0, 0⟩⟩ •
                ((⟨10, 0⟩ : Vec2) - ⟨0, 0⟩) - ⟨5, 0⟩).normalize,
        velocity := (1 / 2 : ℝ) • (Vec2.mk 0 0).reflect
          ((⟨0, 0⟩ : Vec2) +
            qt1 ⟨⟨5, 0⟩, 2, 1 / 2⟩ ⟨⟨10, 0⟩, ⟨0, 0⟩, 1, 0, ⟨0, 0⟩⟩ •
              ((⟨10, 0⟩ : Vec2) - ⟨0, 0⟩) - ⟨5, 0⟩).normalize } := by
  have hd : ¬ ((Ball.mk ⟨10, 0⟩ ⟨0, 0⟩ 1 0 ⟨0, 0⟩).pos -
      (Ball.mk ⟨10, 0⟩ ⟨0, 0⟩ 1 0 ⟨0, 0⟩).prev_pos).lengthSq < 1e-8 := by
    norm_num [Vec2.lengthSq, Vec2.dot]
  have ha : qa ⟨⟨5, 0⟩, 2, 1 / 2⟩ ⟨⟨10, 0⟩, ⟨0, 0⟩, 1, 0, ⟨0, 0⟩⟩ = 100 := by
    norm_num [qa, Vec2.dot]
  have hb : qb ⟨⟨5, 0⟩, 2, 1 / 2⟩ ⟨⟨10, 0⟩, ⟨0, 0⟩, 1, 0, ⟨0, 0⟩⟩ = -100 := by
    norm_num [qb, Vec2.dot]
  have hc : qc ⟨⟨5, 0⟩, 2, 1 / 2⟩ ⟨⟨10, 0⟩, ⟨0, 0⟩, 1, 0, ⟨0, 0⟩⟩ = 16 := by
    norm_num [qc, Vec2.dot]
  have hdisc : ¬ qdisc ⟨⟨5, 0⟩, 2, 1 / 2⟩ ⟨⟨10, 0⟩, ⟨0, 0⟩, 1, 0, ⟨0, 0⟩⟩ < 0 := by
    rw [qdisc_expand, ha, hb, hc]
    norm_num
  have ht1 : qt1 ⟨⟨5, 0⟩, 2, 1 / 2⟩ ⟨⟨10, 0⟩, ⟨0, 0⟩, 1, 0, ⟨0, 0⟩⟩ = 1 / 5 := by
    rw [qt1_expand, ha, hb, hc,
      show (-100 : ℝ) * -100 - 4 * 100 * 16 = 3600 by norm_num,
      sqrt_eval (le_of_lt (by norm_num : (0:ℝ) < 60))
        (by norm_num : (60:ℝ) * 60 = 3600)]
    norm_num
  have h1 : 0 ≤ qt1 ⟨⟨5, 0⟩, 2, 1 / 2⟩ ⟨⟨10, 0⟩, ⟨0, 0⟩, 1, 0, ⟨0, 0⟩⟩ ∧
      qt1 ⟨⟨5, 0⟩, 2, 1 / 2⟩ ⟨⟨10, 0⟩, ⟨0, 0⟩, 1, 0, ⟨0, 0⟩⟩ ≤ 1 := by
    rw [ht1]
    norm_num
  exact ⟨hd, hdisc, h1,
    (collide_general_case ⟨⟨5, 0⟩, 2, 1 / 2⟩ ⟨⟨10, 0⟩, ⟨0, 0⟩, 1, 0, ⟨0, 0⟩⟩ 1
      hd hdisc).1 h1⟩

/-! ### Claim C1 -/

/-- C1: whenever the straight travel segment from `prev_pos` to `pos`
meets the circle of radius `obstacle.radius + ball.radius` around the
obstacle centre (and the squared frame displacement is at least `1e-8`),
`CircleObstacle.collide` detects the collision and resolves it — there is a
time of impact `t ∈ [0,1]` on that circle at which the ball is repositioned
and its velocity reflected (`sweptResolve`) — even if the end-of-frame
position already passed through the obstacle. -/
theorem collide_no_tunneling (o : CircleObstacle) (b : Ball) (dt s : ℝ)
    (hd : ¬ (b.pos - b.prev_pos).lengthSq < 1e-8)
    (hs0 : 0 ≤ s) (hs1 : s ≤ 1)
    (hon : (b.prev_pos + s • (b.pos - b.prev_pos) - o.pos).length =
      o.radius + b.radius) :
    ∃ t, 0 ≤ t ∧ t ≤ 1 ∧
      (b.prev_pos + t • (b.pos - b.prev_pos) - o.pos).lengthSq =
        (o.radius + b.radius) * (o.radius + b.radius) ∧
      o.collide b dt = sweptResolve o b t := by
  have hsq : (b.prev_pos + s • (b.pos - b.prev_pos) - o.pos).lengthSq =
      (o.radius + b.radius) * (o.radius + b.radius) := by
    rw [← Vec2.sq_length, hon]
  have hroot : qa o b * (s * s) + qb o b * s + qc o b = 0 := by
    rw [circle_root_eq, hsq, sub_self]
  have ha : qa o b ≠ 0 := ne_of_gt (qa_pos o b hd)
  have hdisc0 : 0 ≤ qdisc o b := by
    rw [qdisc_expand, quad_disc_of_root hroot]
    positivity
  have hdisc : ¬ qdisc o b < 0 := not_lt.2 hdisc0
  have hdisc0' : 0 ≤ qb o b * qb o b - 4 * qa o b * qc o b := by
    rw [← qdisc_expand]
    exact hdisc0
  have hst : s = qt1 o b ∨ s = qt2 o b := by
    rw [qt1_expand, qt2_expand]
    exact quad_root_eq_or ha hroot
  have honAt : ∀ t, qa o b * (t * t) + qb o b * t + qc o b = 0 →
      (b.prev_pos + t • (b.pos - b.prev_pos) - o.pos).lengthSq =
        (o.radius + b.radius) * (o.radius + b.radius) := by
    intro t hroott
    rw [circle_root_eq] at hroott
    linarith
  by_cases h1 : 0 ≤ qt1 o b ∧ qt1 o b ≤ 1
  · refine ⟨qt1 o b, h1.1, h1.2, honAt _ ?_, ?_⟩
    · rw [qt1_expand]
      exact quad_root_formula1 ha hdisc0'
    · rw [collide_swept o b dt hd hdisc, if_pos h1]
  · have hs2 : s = qt2 o b := by
      rcases hst with h | h
      · exact absurd ⟨h ▸ hs0, h ▸ hs1⟩ h1
      · exact h
    refine ⟨qt2 o b, hs2 ▸ hs0, hs2 ▸ hs1, honAt _ ?_, ?_⟩
    · rw [qt2_expand]
      exact quad_root_formula2 ha hdisc0'
    · rw [collide_swept o b dt hd hdisc, if_neg h1,
        if_pos ⟨hs2 ▸ hs0, hs2 ▸ hs1⟩]

/-- Witness for C1: the segment `(0,0) → (10,0)` crosses the circle of
combined radius 3 around `(5,0)` (at `s = 1/5`), and the collision resolves. -/
theorem collide_no_tunneling_witness :
    ¬ (((⟨⟨10, 0⟩, ⟨0, 0⟩, 1, 0, ⟨0, 0⟩⟩ : Ball).pos -
        (⟨⟨10, 0⟩, ⟨0, 0⟩, 1, 0, ⟨0, 0⟩⟩ : Ball).prev_pos).lengthSq) < 1e-8 ∧
    (0:ℝ) ≤ 1 / 5 ∧ (1 / 5 : ℝ) ≤ 1 ∧
    ((⟨⟨10, 0⟩, ⟨0, 0⟩, 1, 0, ⟨0, 0⟩⟩ : Ball).prev_pos +
        (1 / 5 : ℝ) • ((⟨⟨10, 0⟩, ⟨0, 0⟩, 1, 0, ⟨0, 0⟩⟩ : Ball).pos -
          (⟨⟨10, 0⟩, ⟨0, 0⟩, 1, 0, ⟨0, 0⟩⟩ : Ball).prev_pos) -
        (⟨⟨5, 0⟩, 2, 1 / 2⟩ : CircleObstacle).pos).length =
      (⟨⟨5, 0⟩, 2, 1 / 2⟩ : CircleObstacle).radius +
        (⟨⟨10, 0⟩, ⟨0, 0⟩, 1, 0, ⟨0, 0⟩⟩ : Ball).radius ∧
    ∃ t, 0 ≤ t ∧ t ≤ 1 ∧
      ((⟨⟨10, 0⟩, ⟨0, 0⟩, 1, 0, ⟨0, 0⟩⟩ : Ball).prev_pos +
          t • ((⟨⟨10, 0⟩, ⟨0, 0⟩, 1, 0, ⟨0, 0⟩⟩ : Ball).pos -
            (⟨⟨10, 0⟩, ⟨0, 0⟩, 1, 0, ⟨0, 0⟩⟩ : Ball).prev_pos) -
          (⟨⟨5, 0⟩, 2, 1 / 2⟩ : CircleObstacle).pos).lengthSq =
        ((⟨⟨5, 0⟩, 2, 1 / 2⟩ : CircleObstacle).radius +
            (⟨⟨10, 0⟩, ⟨0, 0⟩, 1, 0, ⟨0, 0⟩⟩ : Ball).radius) *
          ((⟨⟨5, 0⟩, 2, 1 / 2⟩ : CircleObstacle).radius +
            (⟨⟨10, 0⟩, ⟨0, 0⟩, 1, 0, ⟨0, 0⟩⟩ : Ball).radius) ∧
      CircleObstacle.collide ⟨⟨5, 0⟩, 2, 1 / 2⟩
          ⟨⟨10, 0⟩, ⟨0, 0⟩, 1, 0, ⟨0, 0⟩⟩ 1 =
        sweptResolve ⟨⟨5, 0⟩, 2, 1 / 2⟩ ⟨⟨10, 0⟩, ⟨0, 0⟩, 1, 0, ⟨0, 0⟩⟩ t := by
  have hd : ¬ (((⟨⟨10, 0⟩, ⟨0, 0⟩, 1, 0, ⟨0, 0⟩⟩ : Ball).pos -
      (⟨⟨10, 0⟩, ⟨0, 0⟩, 1, 0, ⟨0, 0⟩⟩ : Ball).prev_pos).lengthSq) < 1e-8 := by
    norm_num [Vec2.lengthSq, Vec2.dot]
  have hon : ((⟨⟨10, 0⟩, ⟨0, 0⟩, 1, 0, ⟨0, 0⟩⟩ : Ball).prev_pos +
      (1 / 5 : ℝ) • ((⟨⟨10, 0⟩, ⟨0, 0⟩, 1, 0, ⟨0, 0⟩⟩ : Ball).pos -
        (⟨⟨10, 0⟩, ⟨0, 0⟩, 1, 0, ⟨0, 0⟩⟩ : Ball).prev_pos) -
      (⟨⟨5, 0⟩, 2, 1 / 2⟩ : CircleObstacle).pos).length =
      (⟨⟨5, 0⟩, 2, 1 / 2⟩ : CircleObstacle).radius +
        (⟨⟨10, 0⟩, ⟨0, 0⟩, 1, 0, ⟨0, 0⟩⟩ : Ball).radius := by
    rw [show ((⟨⟨10, 0⟩, ⟨0, 0⟩, 1, 0, ⟨0, 0⟩⟩ : Ball).prev_pos +
        (1 / 5 : ℝ) • ((⟨⟨10, 0⟩, ⟨0, 0⟩, 1, 0, ⟨0, 0⟩⟩ : Ball).pos -
          (⟨⟨10, 0⟩, ⟨0, 0⟩, 1, 0, ⟨0, 0⟩⟩ : Ball).prev_pos) -
        (⟨⟨5, 0⟩, 2, 1 / 2⟩ : CircleObstacle).pos) = ⟨-3, 0⟩ from by
      simp [Vec2.ext_iff]
      norm_num]
    rw [Vec2.length,
      show (Vec2.mk (-3) 0).lengthSq = 9 by norm_num [Vec2.lengthSq, Vec2.dot],
      sqrt_eval (by norm_num : (0:ℝ) ≤ 3) (by norm_num : (3:ℝ) * 3 = 9)]
    norm_num
  exact ⟨hd, by norm_num, by norm_num, hon,
    collide_no_tunneling ⟨⟨5, 0⟩, 2, 1 / 2⟩ ⟨⟨10, 0⟩, ⟨0, 0⟩, 1, 0, ⟨0, 0⟩⟩ 1
      (1 / 5) hd (by norm_num) (by norm_num) hon⟩

/-! ### Remaining branch characterizations of `CircleObstacle.collide` -/

theorem collide_static_resolved (o : CircleObstacle) (b : Ball) (dt : ℝ)
    (hd : (b.pos - b.prev_pos).lengthSq < 1e-8)
    (hlt : (b.pos - o.pos).length < o.radius + b.radius)
    (hgt : 0 < (b.pos - o.pos).length) :
    o.collide b dt = { b with
      pos := o.pos + (o.radius + b.radius) • (b.pos - o.pos).normalize,
      velocity := o.damping • b.velocity.reflect ((b.pos - o.pos).normalize) } := by
  rw [CircleObstacle.collide, if_pos hd, if_pos hlt, if_pos hgt]

theorem collide_static_far (o : CircleObstacle) (b : Ball) (dt : ℝ)
    (hd : (b.pos - b.prev_pos).lengthSq < 1e-8)
    (hge : ¬ (b.pos - o.pos).length < o.radius + b.radius) :
    o.collide b dt = b := by
  rw [CircleObstacle.collide, if_pos hd, if_neg hge]

theorem collide_static_zero (o : CircleObstacle) (b : Ball) (dt : ℝ)
    (hd : (b.pos - b.prev_pos).lengthSq < 1e-8)
    (hn : ¬ 0 < (b.pos - o.pos).length) :
    o.collide b dt = b := by
  rw [CircleObstacle.collide, if_pos hd]
  by_cases hlt : (b.pos - o.pos).length < o.radius + b.radius
  · rw [if_pos hlt, if_neg hn]
  · rw [if_neg hlt]

theorem collide_neg_disc (o : CircleObstacle) (b : Ball) (dt : ℝ)
    (hd : ¬ (b.pos - b.prev_pos).lengthSq < 1e-8)
    (hdisc : qdisc o b < 0) :
    o.collide b dt = b := by
  rw [CircleObstacle.collide, if_neg hd, if_pos hdisc]

theorem collide_no_root (o : CircleObstacle) (b : Ball) (dt : ℝ)
    (hd : ¬ (b.pos - b.prev_pos).lengthSq < 1e-8)
    (hdisc : ¬ qdisc o b < 0)
    (h1 : ¬ (0 ≤ qt1 o b ∧ qt1 o b ≤ 1))
    (h2 : ¬ (0 ≤ qt2 o b ∧ qt2 o b ≤ 1)) :
    o.collide b dt = b := by
  rw [collide_swept o b dt hd hdisc, if_neg h1, if_neg h2]

/-! ### Damped-reflection speed lemmas -/

theorem damped_reflect_length {k : ℝ} (hk0 : 0 ≤ k) (v n : Vec2) :
    (k • v.reflect n).length = k * v.length := by
  rw [Vec2.length_smul_of_nonneg hk0, Vec2.length_reflect]

theorem damped_speed_le {k : ℝ} (hk0 : 0 ≤ k) (hk1 : k ≤ 1) (v n : Vec2) :
    (k • v.reflect n).length ≤ v.length := by
  rw [damped_reflect_length hk0]
  nlinarith [Vec2.length_nonneg v]

theorem damped_speed_eq {k : ℝ} (v n : Vec2)
    (hk0 : 0 ≤ k) (h : (k • v.reflect n).length = v.length) :
    k = 1 ∨ v.length = 0 := by
  rw [damped_reflect_length hk0] at h
  have h2 : (k - 1) * v.length = 0 := by linarith
  rcases mul_eq_zero.1 h2 with h3 | h3
  · left
    linarith
  · right
    exact h3

/-! ### Claim C6 -/

/-- C6 (amended): for damping `k ∈ [0,1]`, the speed after any resolved
collision — in `handle_polygon_collision` or in `CircleObstacle.collide` —
is at most the speed before (for the circular obstacle the bound holds for
every call), and equality at a resolved collision forces `k = 1` or a
pre-collision speed of zero. -/
theorem collision_damping_bound (k : ℝ) (hk0 : 0 ≤ k) (hk1 : k ≤ 1) :
    (∀ (b : Ball) (pts : List Vec2) (b' : Ball),
      handle_polygon_collision b pts k = (b', true) →
        b'.velocity.length ≤ b.velocity.length ∧
        (b'.velocity.length = b.velocity.length →
          k = 1 ∨ b.velocity.length = 0)) ∧
    (∀ (o : CircleObstacle) (b : Ball) (dt : ℝ), o.damping = k →
        (o.collide b dt).velocity.length ≤ b.velocity.length ∧
        (circleCollides o b →
          (o.collide b dt).velocity.length = b.velocity.length →
          k = 1 ∨ b.velocity.length = 0)) := by
  constructor
  · intro b pts b' h
    obtain ⟨e, he, hhit, hb'⟩ := handleEdges_true b k (polygonEdges pts) b' h
    subst hb'
    constructor
    · show (k • b.velocity.reflect
          ((b.pos - get_nearest_point_on_segment b.pos e.1 e.2).normalize)).length ≤
        b.velocity.length
      exact damped_speed_le hk0 hk1 _ _
    · intro heq
      replace heq : (k • b.velocity.reflect
          ((b.pos - get_nearest_point_on_segment b.pos e.1 e.2).normalize)).length =
          b.velocity.length := heq
      exact damped_speed_eq _ _ hk0 heq
  · intro o b dt hkd
    constructor
    · by_cases hd : (b.pos - b.prev_pos).lengthSq < 1e-8
      · by_cases hlt : (b.pos - o.pos).length < o.radius + b.radius
        · by_cases hgt : 0 < (b.pos - o.pos).length
          · rw [collide_static_resolved o b dt hd hlt hgt]
            show (o.damping • b.velocity.reflect
                ((b.pos - o.pos).normalize)).length ≤ b.velocity.length
            rw [hkd]
            exact damped_speed_le hk0 hk1 _ _
          · rw [collide_static_zero o b dt hd hgt]
        · rw [collide_static_far o b dt hd hlt]
      · by_cases hdisc : qdisc o b < 0
        · rw [collide_neg_disc o b dt hd hdisc]
        · rw [collide_swept o b dt hd hdisc]
          by_cases h1 : 0 ≤ qt1 o b ∧ qt1 o b ≤ 1
          · rw [if_pos h1]
            show (o.damping • b.velocity.reflect
                ((b.prev_pos + qt1 o b • (b.pos - b.prev_pos) -
                  o.pos).normalize)).length ≤ b.velocity.length
            rw [hkd]
            exact damped_speed_le hk0 hk1 _ _
          · rw [if_neg h1]
            by_cases h2 : 0 ≤ qt2 o b ∧ qt2 o b ≤ 1
            · rw [if_pos h2]
              show (o.damping • b.velocity.reflect
                  ((b.prev_pos + qt2 o b • (b.pos - b.prev_pos) -
                    o.pos).normalize)).length ≤ b.velocity.length
              rw [hkd]
              exact damped_speed_le hk0 hk1 _ _
            · rw [if_neg h2]
    · intro hcol heq
      rcases hcol with ⟨hd, hlt, hgt⟩ | ⟨hd, hdisc, hor⟩
      · rw [collide_static_resolved o b dt hd hlt hgt] at heq
        replace heq : (o.damping • b.velocity.reflect
            ((b.pos - o.pos).normalize)).length = b.velocity.length := heq
        rw [hkd] at heq
        exact damped_speed_eq _ _ hk0 heq
      · by_cases h1 : 0 ≤ qt1 o b ∧ qt1 o b ≤ 1
        · rw [collide_swept o b dt hd hdisc, if_pos h1] at heq
          replace heq : (o.damping • b.velocity.reflect
              ((b.prev_pos + qt1 o b • (b.pos - b.prev_pos) -
                o.pos).normalize)).length = b.velocity.length := heq
          rw [hkd] at heq
          exact damped_speed_eq _ _ hk0 heq
        · have h2 : 0 ≤ qt2 o b ∧ qt2 o b ≤ 1 := hor.resolve_left h1
          rw [collide_swept o b dt hd hdisc, if_neg h1, if_pos h2] at heq
          replace heq : (o.damping • b.velocity.reflect
              ((b.prev_pos + qt2 o b • (b.pos - b.prev_pos) -
                o.pos).normalize)).length = b.velocity.length := heq
          rw [hkd] at heq
          exact damped_speed_eq _ _ hk0 heq

/-- Witness for C6 (amended) at the concrete damping `k = 1/2`. -/
theorem collision_damping_bound_witness :
    (0:ℝ) ≤ 1 / 2 ∧ (1 / 2 : ℝ) ≤ 1 ∧
    ((∀ (b : Ball) (pts : List Vec2) (b' : Ball),
      handle_polygon_collision b pts (1 / 2) = (b', true) →
        b'.velocity.length ≤ b.velocity.length ∧
        (b'.velocity.length = b.velocity.length →
          (1 / 2 : ℝ) = 1 ∨ b.velocity.length = 0)) ∧
    (∀ (o : CircleObstacle) (b : Ball) (dt : ℝ), o.damping = 1 / 2 →
        (o.collide b dt).velocity.length ≤ b.velocity.length ∧
        (circleCollides o b →
          (o.collide b dt).velocity.length = b.velocity.length →
          (1 / 2 : ℝ) = 1 ∨ b.velocity.length = 0))) :=
  ⟨by norm_num, by norm_num,
    collision_damping_bound (1 / 2) (by norm_num) (by norm_num)⟩

/-- Counterexample to C6 as stated: at the concrete square course a collision
is resolved with damping `1/2 ∈ [0,1]`, `1/2 ≠ 1`, and yet the speed after
equals the speed before (the ball was at rest, both speeds are zero). -/
theorem collision_damping_equality_cex :
    (0:ℝ) ≤ 1 / 2 ∧ (1 / 2 : ℝ) ≤ 1 ∧ (1 / 2 : ℝ) ≠ 1 ∧
    handle_polygon_collision ⟨⟨5, 1⟩, ⟨0, 0⟩, 2, 0, ⟨5, 1⟩⟩
        [⟨0, 0⟩, ⟨10, 0⟩, ⟨10, 10⟩, ⟨0, 10⟩] (1 / 2) =
      (resolveEdge ⟨⟨5, 1⟩, ⟨0, 0⟩, 2, 0, ⟨5, 1⟩⟩ (1 / 2) (⟨0, 0⟩, ⟨10, 0⟩),
        true) ∧
    (resolveEdge ⟨⟨5, 1⟩, ⟨0, 0⟩, 2, 0, ⟨5, 1⟩⟩ (1 / 2)
        (⟨0, 0⟩, ⟨10, 0⟩)).velocity.length =
      (Ball.mk ⟨5, 1⟩ ⟨0, 0⟩ 2 0 ⟨5, 1⟩).velocity.length := by
  refine ⟨by norm_num, by norm_num, by norm_num,
    handleEdges_first_hit ⟨⟨5, 1⟩, ⟨0, 0⟩, 2, 0, ⟨5, 1⟩⟩ (1 / 2) []
      (⟨0, 0⟩, ⟨10, 0⟩)
      [(⟨10, 0⟩, ⟨10, 10⟩), (⟨10, 10⟩, ⟨0, 10⟩), (⟨0, 10⟩, ⟨0, 0⟩)]
      (fun e' h => absurd h (List.not_mem_nil e')) square_hit, ?_⟩
  show ((1 / 2 : ℝ) • (Vec2.mk 0 0).reflect
      ((Vec2.mk 5 1 -
        get_nearest_point_on_segment ⟨5, 1⟩ ⟨0, 0⟩ ⟨10, 0⟩).normalize)).length =
    (Vec2.mk 0 0).length
  rw [damped_reflect_length (by norm_num : (0:ℝ) ≤ 1 / 2)]
  rw [show (Vec2.mk 0 0).length = 0 from by
    rw [Vec2.length]
    norm_num [Vec2.lengthSq, Vec2.dot]]
  norm_num

/-! ### Claim C7 -/

theorem Vec2.sub_self' (v : Vec2) : v - v = ⟨0, 0⟩ := by
  simp [Vec2.ext_iff]

theorem Vec2.add_zero' (v : Vec2) : v + ⟨0, 0⟩ = v := by
  simp [Vec2.ext_iff]

theorem Vec2.smul_zero' (c : ℝ) : c • (⟨0, 0⟩ : Vec2) = ⟨0, 0⟩ := by
  simp [Vec2.ext_iff]

theorem Vec2.length_zero : (⟨0, 0⟩ : Vec2).length = 0 := by
  rw [Vec2.length]
  norm_num [Vec2.lengthSq, Vec2.dot]

theorem Vec2.length_eval {v : Vec2} {r : ℝ} (hr : 0 ≤ r)
    (h : v.lengthSq = r * r) : v.length = r := by
  rw [Vec2.length, h]
  exact Real.sqrt_mul_self hr

theorem update_of_rest (b : Ball) (dt : ℝ) (hv : b.velocity = ⟨0, 0⟩)
    (hp : b.prev_pos = b.pos) : b.update dt = b := by
  rcases b with ⟨pos, vel, r, f, prev⟩
  change vel = ⟨0, 0⟩ at hv
  change prev = pos at hp
  subst hv
  subst hp
  rw [Ball.update]
  rw [Vec2.smul_zero', Vec2.add_zero', Vec2.smul_zero',
    if_pos (by rw [Vec2.length_zero]; norm_num : (Vec2.mk 0 0).length < 0.1)]

theorem foldl_collide_of_fixed (b : Ball) (dt : ℝ) :
    ∀ L : List CircleObstacle, (∀ o ∈ L, o.collide b dt = b) →
      L.foldl (fun bb o => o.collide bb dt) b = b := by
  intro L
  induction L with
  | nil => intro _; rfl
  | cons o rest ih =>
    intro hL
    rw [List.foldl_cons, hL o (List.mem_cons_self o rest)]
    exact ih (fun o' ho' => hL o' (List.mem_cons_of_mem _ ho'))

/-- C7 (amended): a ball at rest — zero velocity, previous position equal to
the current one, clearance at least its radius from every boundary edge and
at least the combined radius from every obstacle centre — is left with
identical state by `Ball.update`, by every `CircleObstacle.collide` call, by
`handle_polygon_collision`, and by any number of composed simulation ticks. -/
theorem rest_state_idempotent (b : Ball) (obstacles : List CircleObstacle)
    (pts : List Vec2) (k dt : ℝ) (h : restState b obstacles pts) :
    b.update dt = b ∧
    (∀ o ∈ obstacles, o.collide b dt = b) ∧
    handle_polygon_collision b pts k = (b, false) ∧
    ∀ n : ℕ, (simTick obstacles pts k dt)^[n] b = b := by
  obtain ⟨hv, hp, hedges, hobs⟩ := h
  have hupd : b.update dt = b := update_of_rest b dt hv hp
  have hd : (b.pos - b.prev_pos).lengthSq < 1e-8 := by
    rw [hp, Vec2.sub_self']
    norm_num [Vec2.lengthSq, Vec2.dot]
  have hcol : ∀ o ∈ obstacles, o.collide b dt = b := fun o ho =>
    collide_static_far o b dt hd (not_lt.2 (hobs o ho))
  have hhandle : handle_polygon_collision b pts k = (b, false) :=
    handleEdges_of_no_hit b k (polygonEdges pts)
      (fun e he hhit => absurd hhit.1 (not_lt.2 (hedges e he)))
  have htick : simTick obstacles pts k dt b = b := by
    rw [simTick]
    rw [hupd, foldl_collide_of_fixed b dt obstacles hcol, hhandle]
  exact ⟨hupd, hcol, hhandle, fun n => Function.iterate_fixed htick n⟩

/-- Counterexample to C7 as stated: a ball with zero velocity whose position
is at distance 5 ≥ 3 from the obstacle centre, but whose previous position is
on the far side of the obstacle, is moved by `CircleObstacle.collide` (the
swept test fires on the stale segment `prev_pos → pos`). -/
theorem rest_state_cex :
    (Ball.mk ⟨10, 0⟩ ⟨0, 0⟩ 1 0 ⟨0, 0⟩).velocity = ⟨0, 0⟩ ∧
    (⟨⟨5, 0⟩, 2, 1 / 2⟩ : CircleObstacle).radius +
        (Ball.mk ⟨10, 0⟩ ⟨0, 0⟩ 1 0 ⟨0, 0⟩).radius ≤
      ((Ball.mk ⟨10, 0⟩ ⟨0, 0⟩ 1 0 ⟨0, 0⟩).pos -
        (⟨⟨5, 0⟩, 2, 1 / 2⟩ : CircleObstacle).pos).length ∧
    (CircleObstacle.collide ⟨⟨5, 0⟩, 2, 1 / 2⟩
        ⟨⟨10, 0⟩, ⟨0, 0⟩, 1, 0, ⟨0, 0⟩⟩ 1).pos ≠
      (Ball.mk ⟨10, 0⟩ ⟨0, 0⟩ 1 0 ⟨0, 0⟩).pos := by
  refine ⟨rfl, ?_, ?_⟩
  · rw [show ((Ball.mk ⟨10, 0⟩ ⟨0, 0⟩ 1 0 ⟨0, 0⟩).pos -
        (⟨⟨5, 0⟩, 2, 1 / 2⟩ : CircleObstacle).pos) = ⟨5, 0⟩ from by
      simp [Vec2.ext_iff]
      norm_num]
    rw [Vec2.length_eval (by norm_num : (0:ℝ) ≤ 5)
      (by norm_num [Vec2.lengthSq, Vec2.dot] : (Vec2.mk 5 0).lengthSq = 5 * 5)]
    norm_num
  · have hd : ¬ (((⟨⟨10, 0⟩, ⟨0, 0⟩, 1, 0, ⟨0, 0⟩⟩ : Ball).pos -
        (⟨⟨10, 0⟩, ⟨0, 0⟩, 1, 0, ⟨0, 0⟩⟩ : Ball).prev_pos).lengthSq) < 1e-8 := by
      norm_num [Vec2.lengthSq, Vec2.dot]
    have ha : qa ⟨⟨5, 0⟩, 2, 1 / 2⟩ ⟨⟨10, 0⟩, ⟨0, 0⟩, 1, 0, ⟨0, 0⟩⟩ = 100 := by
      norm_num [qa, Vec2.dot]
    have hb : qb ⟨⟨5, 0⟩, 2, 1 / 2⟩ ⟨⟨10, 0⟩, ⟨0, 0⟩, 1, 0, ⟨0, 0⟩⟩ = -100 := by
      norm_num [qb, Vec2.dot]
    have hc : qc ⟨⟨5, 0⟩, 2, 1 / 2⟩ ⟨⟨10, 0⟩, ⟨0, 0⟩, 1, 0, ⟨0, 0⟩⟩ = 16 := by
      norm_num [qc, Vec2.dot]
    have hdisc : ¬ qdisc ⟨⟨5, 0⟩, 2, 1 / 2⟩ ⟨⟨10, 0⟩, ⟨0, 0⟩, 1, 0, ⟨0, 0⟩⟩ < 0 := by
      rw [qdisc_expand, ha, hb, hc]
      norm_num
    have ht1 : qt1 ⟨⟨5, 0⟩, 2, 1 / 2⟩ ⟨⟨10, 0⟩, ⟨0, 0⟩, 1, 0, ⟨0, 0⟩⟩ = 1 / 5 := by
      rw [qt1_expand, ha, hb, hc,
        show (-100 : ℝ) * -100 - 4 * 100 * 16 = 3600 by norm_num,
        sqrt_eval (by norm_num : (0:ℝ) ≤ 60) (by norm_num : (60:ℝ) * 60 = 3600)]
      norm_num
    have h1 : 0 ≤ qt1 ⟨⟨5, 0⟩, 2, 1 / 2⟩ ⟨⟨10, 0⟩, ⟨0, 0⟩, 1, 0, ⟨0, 0⟩⟩ ∧
        qt1 ⟨⟨5, 0⟩, 2, 1 / 2⟩ ⟨⟨10, 0⟩, ⟨0, 0⟩, 1, 0, ⟨0, 0⟩⟩ ≤ 1 := by
      rw [ht1]
      norm_num
    have hcol : CircleObstacle.collide ⟨⟨5, 0⟩, 2, 1 / 2⟩
        ⟨⟨10, 0⟩, ⟨0, 0⟩, 1, 0, ⟨0, 0⟩⟩ 1 =
        sweptResolve ⟨⟨5, 0⟩, 2, 1 / 2⟩ ⟨⟨10, 0⟩, ⟨0, 0⟩, 1, 0, ⟨0, 0⟩⟩
          (qt1 ⟨⟨5, 0⟩, 2, 1 / 2⟩ ⟨⟨10, 0⟩, ⟨0, 0⟩, 1, 0, ⟨0, 0⟩⟩) := by
      rw [collide_swept ⟨⟨5, 0⟩, 2, 1 / 2⟩ ⟨⟨10, 0⟩, ⟨0, 0⟩, 1, 0, ⟨0, 0⟩⟩ 1
        hd hdisc, if_pos h1]
    have hnorm : (Vec2.mk (-3) 0).normalize = ⟨-1, 0⟩ := by
      rw [Vec2.normalize, Vec2.length_eval (by norm_num : (0:ℝ) ≤ 3)
        (by norm_num [Vec2.lengthSq, Vec2.dot] :
          (Vec2.mk (-3) 0).lengthSq = 3 * 3)]
      simp [Vec2.ext_iff]
    have hpos : (sweptResolve ⟨⟨5, 0⟩, 2, 1 / 2⟩
        ⟨⟨10, 0⟩, ⟨0, 0⟩, 1, 0, ⟨0, 0⟩⟩ (1 / 5)).pos =
        ⟨5 + 3 * 1.0001 * (-1), 0⟩ := by
      show ((⟨5, 0⟩ : Vec2) + (((2:ℝ) + 1) * 1.0001) •
          ((⟨0, 0⟩ : Vec2) + (1 / 5 : ℝ) • ((⟨10, 0⟩ : Vec2) - ⟨0, 0⟩) -
            ⟨5, 0⟩).normalize) = ⟨5 + 3 * 1.0001 * (-1), 0⟩
      rw [show ((⟨0, 0⟩ : Vec2) + (1 / 5 : ℝ) • ((⟨10, 0⟩ : Vec2) - ⟨0, 0⟩) -
          ⟨5, 0⟩) = ⟨-3, 0⟩ from by
        simp [Vec2.ext_iff]
        norm_num]
      rw [hnorm]
      simp [Vec2.ext_iff]
      norm_num
    rw [hcol, ht1, hpos]
    intro hEq
    have hx : (5 + 3 * 1.0001 * (-1) : ℝ) = 10 := congrArg Vec2.x hEq
    norm_num at hx

/-- Witness for C7 (amended): a resting ball at `(5,5)` inside the square
course with a distant obstacle is fixed by every operation, over all ticks. -/
theorem rest_state_idempotent_witness :
    restState ⟨⟨5, 5⟩, ⟨0, 0⟩, 1, 0, ⟨5, 5⟩⟩ [⟨⟨100, 5⟩, 2, 1 / 2⟩]
        [⟨0, 0⟩, ⟨10, 0⟩, ⟨10, 10⟩, ⟨0, 10⟩] ∧
    (Ball.update ⟨⟨5, 5⟩, ⟨0, 0⟩, 1, 0, ⟨5, 5⟩⟩ (1 / 60) =
        ⟨⟨5, 5⟩, ⟨0, 0⟩, 1, 0, ⟨5, 5⟩⟩ ∧
      (∀ o ∈ [(⟨⟨100, 5⟩, 2, 1 / 2⟩ : CircleObstacle)],
        o.collide ⟨⟨5, 5⟩, ⟨0, 0⟩, 1, 0, ⟨5, 5⟩⟩ (1 / 60) =
          ⟨⟨5, 5⟩, ⟨0, 0⟩, 1, 0, ⟨5, 5⟩⟩) ∧
      handle_polygon_collision ⟨⟨5, 5⟩, ⟨0, 0⟩, 1, 0, ⟨5, 5⟩⟩
          [⟨0, 0⟩, ⟨10, 0⟩, ⟨10, 10⟩, ⟨0, 10⟩] (3 / 5) =
        (⟨⟨5, 5⟩, ⟨0, 0⟩, 1, 0, ⟨5, 5⟩⟩, false) ∧
      ∀ n : ℕ,
        (simTick [⟨⟨100, 5⟩, 2, 1 / 2⟩] [⟨0, 0⟩, ⟨10, 0⟩, ⟨10, 10⟩, ⟨0, 10⟩]
            (3 / 5) (1 / 60))^[n] ⟨⟨5, 5⟩, ⟨0, 0⟩, 1, 0, ⟨5, 5⟩⟩ =
          ⟨⟨5, 5⟩, ⟨0, 0⟩, 1, 0, ⟨5, 5⟩⟩) := by
  have hrest : restState ⟨⟨5, 5⟩, ⟨0, 0⟩, 1, 0, ⟨5, 5⟩⟩ [⟨⟨100, 5⟩, 2, 1 / 2⟩]
      [⟨0, 0⟩, ⟨10, 0⟩, ⟨10, 10⟩, ⟨0, 10⟩] := by
    refine ⟨rfl, rfl, ?_, ?_⟩
    · intro e he
      rw [show polygonEdges [⟨0, 0⟩, ⟨10, 0⟩, ⟨10, 10⟩, ⟨0, 10⟩] =
          [((⟨0, 0⟩ : Vec2), (⟨10, 0⟩ : Vec2)), (⟨10, 0⟩, ⟨10, 10⟩),
            (⟨10, 10⟩, ⟨0, 10⟩), (⟨0, 10⟩, ⟨0, 0⟩)] from rfl] at he
      fin_cases he
      · show (1:ℝ) ≤ ((⟨5, 5⟩ : Vec2) -
          get_nearest_point_on_segment ⟨5, 5⟩ ⟨0, 0⟩ ⟨10, 0⟩).length
        rw [show get_nearest_point_on_segment ⟨5, 5⟩ ⟨0, 0⟩ ⟨10, 0⟩ = ⟨5, 0⟩
            from by
          rw [get_nearest_point_on_segment]
          norm_num [Vec2.lengthSq, Vec2.dot, Vec2.ext_iff, min_def, max_def]]
        rw [show (⟨5, 5⟩ : Vec2) - ⟨5, 0⟩ = ⟨0, 5⟩ from by simp [Vec2.ext_iff]]
        rw [Vec2.length_eval (by norm_num : (0:ℝ) ≤ 5)
          (by norm_num [Vec2.lengthSq, Vec2.dot] :
            (Vec2.mk 0 5).lengthSq = 5 * 5)]
        norm_num
      · show (1:ℝ) ≤ ((⟨5, 5⟩ : Vec2) -
          get_nearest_point_on_segment ⟨5, 5⟩ ⟨10, 0⟩ ⟨10, 10⟩).length
        rw [show get_nearest_point_on_segment ⟨5, 5⟩ ⟨10, 0⟩ ⟨10, 10⟩ = ⟨10, 5⟩
            from by
          rw [get_nearest_point_on_segment]
          norm_num [Vec2.lengthSq, Vec2.dot, Vec2.ext_iff, min_def, max_def]]
        rw [show (⟨5, 5⟩ : Vec2) - ⟨10, 5⟩ = ⟨-5, 0⟩ from by
          simp [Vec2.ext_iff]
          norm_num]
        rw [Vec2.length_eval (by norm_num : (0:ℝ) ≤ 5)
          (by norm_num [Vec2.lengthSq, Vec2.dot] :
            (Vec2.mk (-5) 0).lengthSq = 5 * 5)]
        norm_num
      · show (1:ℝ) ≤ ((⟨5, 5⟩ : Vec2) -
          get_nearest_point_on_segment ⟨5, 5⟩ ⟨10, 10⟩ ⟨0, 10⟩).length
        rw [show get_nearest_point_on_segment ⟨5, 5⟩ ⟨10, 10⟩ ⟨0, 10⟩ = ⟨5, 10⟩
            from by
          rw [get_nearest_point_on_segment]
          norm_num [Vec2.lengthSq, Vec2.dot, Vec2.ext_iff, min_def, max_def]]
        rw [show (⟨5, 5⟩ : Vec2) - ⟨5, 10⟩ = ⟨0, -5⟩ from by
          simp [Vec2.ext_iff]
          norm_num]
        rw [Vec2.length_eval (by norm_num : (0:ℝ) ≤ 5)
          (by norm_num [Vec2.lengthSq, Vec2.dot] :
            (Vec2.mk 0 (-5)).lengthSq = 5 * 5)]
        norm_num
      · show (1:ℝ) ≤ ((⟨5, 5⟩ : Vec2) -
          get_nearest_point_on_segment ⟨5, 5⟩ ⟨0, 10⟩ ⟨0, 0⟩).length
        rw [show get_nearest_point_on_segment ⟨5, 5⟩ ⟨0, 10⟩ ⟨0, 0⟩ = ⟨0, 5⟩
            from by
          rw [get_nearest_point_on_segment]
          norm_num [Vec2.lengthSq, Vec2.dot, Vec2.ext_iff, min_def, max_def]]
        rw [show (⟨5, 5⟩ : Vec2) - ⟨0, 5⟩ = ⟨5, 0⟩ from by simp [Vec2.ext_iff]]
        rw [Vec2.length_eval (by norm_num : (0:ℝ) ≤ 5)
          (by norm_num [Vec2.lengthSq, Vec2.dot] :
            (Vec2.mk 5 0).lengthSq = 5 * 5)]
        norm_num
    · intro o ho
      fin_cases ho
      show (2:ℝ) + 1 ≤ ((⟨5, 5⟩ : Vec2) - ⟨100, 5⟩).length
      rw [show (⟨5, 5⟩ : Vec2) - ⟨100, 5⟩ = ⟨-95, 0⟩ from by
        simp [Vec2.ext_iff]
        norm_num]
      rw [Vec2.length_eval (by norm_num : (0:ℝ) ≤ 95)
        (by norm_num [Vec2.lengthSq, Vec2.dot] :
          (Vec2.mk (-95) 0).lengthSq = 95 * 95)]
      norm_num
  exact ⟨hrest, rest_state_idempotent ⟨⟨5, 5⟩, ⟨0, 0⟩, 1, 0, ⟨5, 5⟩⟩
    [⟨⟨100, 5⟩, 2, 1 / 2⟩] [⟨0, 0⟩, ⟨10, 0⟩, ⟨10, 10⟩, ⟨0, 10⟩] (3 / 5)
    (1 / 60) hrest⟩

/-! ### Claim C8 -/

/-- C8 (amended): the numerical degeneracies are all non-fatal, but they are
not all "skips": a zero-length edge vector makes the nearest point default to
the edge start (the edge still collides as a point); a zero-length
displacement where a normal would be computed does skip — an edge at distance
exactly zero is passed over with no mutation from it, and a static obstacle
overlap at distance zero leaves the ball unchanged; a negative discriminant
in the swept test returns with the ball (position, previous position and
velocity) entirely unchanged. -/
theorem degeneracy_handling (p a : Vec2) (b b2 b3 : Ball) (k dt : ℝ)
    (e : Vec2 × Vec2) (rest : List (Vec2 × Vec2)) (o o2 : CircleObstacle)
    (h1 : (b.pos - get_nearest_point_on_segment b.pos e.1 e.2).length = 0)
    (h2 : (b2.pos - b2.prev_pos).lengthSq < 1e-8)
    (h3 : ¬ 0 < (b2.pos - o2.pos).length)
    (h4 : ¬ (b3.pos - b3.prev_pos).lengthSq < 1e-8)
    (h5 : qdisc o b3 < 0) :
    get_nearest_point_on_segment p a a = a ∧
    handleEdges b k (e :: rest) = handleEdges b k rest ∧
    o2.collide b2 dt = b2 ∧
    o.collide b3 dt = b3 := by
  refine ⟨?_, ?_, collide_static_zero o2 b2 dt h2 h3,
    collide_neg_disc o b3 dt h4 h5⟩
  · exact get_nearest_zero_case p a a
      (by rw [Vec2.sub_self']; norm_num [Vec2.lengthSq, Vec2.dot])
  · rw [handleEdges_cons]
    by_cases hlt :
        (b.pos - get_nearest_point_on_segment b.pos e.1 e.2).length < b.radius
    · rw [if_pos hlt, if_pos h1]
    · rw [if_neg hlt]

/-- Counterexample to C8 as stated: a zero-length boundary edge is NOT
skipped — a ball within its radius of the degenerate edge's point is mutated
by it (and the call returns `true`). -/
theorem degeneracy_zero_edge_cex :
    ((⟨0, 0⟩ : Vec2) - ⟨0, 0⟩).lengthSq = 0 ∧
    handle_polygon_collision ⟨⟨0, 1⟩, ⟨0, 0⟩, 2, 0, ⟨0, 1⟩⟩
        [⟨0, 0⟩, ⟨0, 0⟩, ⟨5, -5⟩] (1 / 2) =
      (resolveEdge ⟨⟨0, 1⟩, ⟨0, 0⟩, 2, 0, ⟨0, 1⟩⟩ (1 / 2) (⟨0, 0⟩, ⟨0, 0⟩),
        true) ∧
    (resolveEdge ⟨⟨0, 1⟩, ⟨0, 0⟩, 2, 0, ⟨0, 1⟩⟩ (1 / 2)
        (⟨0, 0⟩, ⟨0, 0⟩)).pos ≠ (Ball.mk ⟨0, 1⟩ ⟨0, 0⟩ 2 0 ⟨0, 1⟩).pos := by
  have hnear : get_nearest_point_on_segment ⟨0, 1⟩ ⟨0, 0⟩ ⟨0, 0⟩ = ⟨0, 0⟩ :=
    get_nearest_zero_case _ _ _
      (by rw [Vec2.sub_self']; norm_num [Vec2.lengthSq, Vec2.dot])
  have hlen1 : ((⟨0, 1⟩ : Vec2) - ⟨0, 0⟩).length = 1 := by
    rw [show (⟨0, 1⟩ : Vec2) - ⟨0, 0⟩ = ⟨0, 1⟩ from by simp [Vec2.ext_iff]]
    exact Vec2.length_eval (by norm_num)
      (by norm_num [Vec2.lengthSq, Vec2.dot])
  refine ⟨by rw [Vec2.sub_self']; norm_num [Vec2.lengthSq, Vec2.dot], ?_, ?_⟩
  · exact handleEdges_first_hit ⟨⟨0, 1⟩, ⟨0, 0⟩, 2, 0, ⟨0, 1⟩⟩ (1 / 2) []
      (⟨0, 0⟩, ⟨0, 0⟩) [(⟨0, 0⟩, ⟨5, -5⟩), (⟨5, -5⟩, ⟨0, 0⟩)]
      (fun e' h => absurd h (List.not_mem_nil e'))
      (by
        unfold edgeHits
        dsimp only
        rw [hnear, hlen1]
        norm_num)
  · have hpos : (resolveEdge ⟨⟨0, 1⟩, ⟨0, 0⟩, 2, 0, ⟨0, 1⟩⟩ (1 / 2)
        (⟨0, 0⟩, ⟨0, 0⟩)).pos = ⟨0, 2⟩ := by
      show ((get_nearest_point_on_segment ⟨0, 1⟩ ⟨0, 0⟩ ⟨0, 0⟩) + (2:ℝ) •
          ((⟨0, 1⟩ : Vec2) -
            get_nearest_point_on_segment ⟨0, 1⟩ ⟨0, 0⟩ ⟨0, 0⟩).normalize) =
        ⟨0, 2⟩
      rw [hnear,
        show (⟨0, 1⟩ : Vec2) - ⟨0, 0⟩ = ⟨0, 1⟩ from by simp [Vec2.ext_iff],
        show (Vec2.mk 0 1).normalize = ⟨0, 1⟩ from by
          rw [Vec2.normalize, Vec2.length_eval (by norm_num : (0:ℝ) ≤ 1)
            (by norm_num [Vec2.lengthSq, Vec2.dot] :
              (Vec2.mk 0 1).lengthSq = 1 * 1)]
          simp [Vec2.ext_iff]]
      simp [Vec2.ext_iff]
    rw [hpos]
    intro hEq
    have hy : (2 : ℝ) = 1 := congrArg Vec2.y hEq
    norm_num at hy

/-- Witness for C8 (amended): concrete instances of each degeneracy. -/
theorem degeneracy_handling_witness :
    ((Ball.mk ⟨5, 0⟩ ⟨0, 0⟩ 1 0 ⟨5, 0⟩).pos -
        get_nearest_point_on_segment (Ball.mk ⟨5, 0⟩ ⟨0, 0⟩ 1 0 ⟨5, 0⟩).pos
          (⟨0, 0⟩ : Vec2) (⟨10, 0⟩ : Vec2)).length = 0 ∧
    ((Ball.mk ⟨0, 0⟩ ⟨0, 0⟩ 1 0 ⟨0, 0⟩).pos -
        (Ball.mk ⟨0, 0⟩ ⟨0, 0⟩ 1 0 ⟨0, 0⟩).prev_pos).lengthSq < 1e-8 ∧
    ¬ 0 < ((Ball.mk ⟨0, 0⟩ ⟨0, 0⟩ 1 0 ⟨0, 0⟩).pos -
        (⟨⟨0, 0⟩, 2, 1 / 2⟩ : CircleObstacle).pos).length ∧
    ¬ ((Ball.mk ⟨10, 0⟩ ⟨0, 0⟩ 1 0 ⟨0, 0⟩).pos -
        (Ball.mk ⟨10, 0⟩ ⟨0, 0⟩ 1 0 ⟨0, 0⟩).prev_pos).lengthSq < 1e-8 ∧
    qdisc ⟨⟨5, 100⟩, 1, 1 / 2⟩ ⟨⟨10, 0⟩, ⟨0, 0⟩, 1, 0, ⟨0, 0⟩⟩ < 0 ∧
    (get_nearest_point_on_segment (⟨1, 2⟩ : Vec2) (⟨3, 4⟩ : Vec2) ⟨3, 4⟩ =
        ⟨3, 4⟩ ∧
      handleEdges ⟨⟨5, 0⟩, ⟨0, 0⟩, 1, 0, ⟨5, 0⟩⟩ (3 / 5)
          ((((⟨0, 0⟩ : Vec2), (⟨10, 0⟩ : Vec2))) :: []) =
        handleEdges ⟨⟨5, 0⟩, ⟨0, 0⟩, 1, 0, ⟨5, 0⟩⟩ (3 / 5) [] ∧
      CircleObstacle.collide ⟨⟨0, 0⟩, 2, 1 / 2⟩ ⟨⟨0, 0⟩, ⟨0, 0⟩, 1, 0, ⟨0, 0⟩⟩
          (1 / 60) = ⟨⟨0, 0⟩, ⟨0, 0⟩, 1, 0, ⟨0, 0⟩⟩ ∧
      CircleObstacle.collide ⟨⟨5, 100⟩, 1, 1 / 2⟩
          ⟨⟨10, 0⟩, ⟨0, 0⟩, 1, 0, ⟨0, 0⟩⟩ (1 / 60) =
        ⟨⟨10, 0⟩, ⟨0, 0⟩, 1, 0, ⟨0, 0⟩⟩) := by
  have h1 : ((Ball.mk ⟨5, 0⟩ ⟨0, 0⟩ 1 0 ⟨5, 0⟩).pos -
      get_nearest_point_on_segment (Ball.mk ⟨5, 0⟩ ⟨0, 0⟩ 1 0 ⟨5, 0⟩).pos
        (⟨0, 0⟩ : Vec2) (⟨10, 0⟩ : Vec2)).length = 0 := by
    show ((⟨5, 0⟩ : Vec2) -
      get_nearest_point_on_segment ⟨5, 0⟩ ⟨0, 0⟩ ⟨10, 0⟩).length = 0
    rw [show get_nearest_point_on_segment ⟨5, 0⟩ ⟨0, 0⟩ ⟨10, 0⟩ = ⟨5, 0⟩
        from by
      rw [get_nearest_point_on_segment]
      norm_num [Vec2.lengthSq, Vec2.dot, Vec2.ext_iff, min_def, max_def]]
    rw [Vec2.sub_self']
    exact Vec2.length_zero
  have h2 : ((Ball.mk ⟨0, 0⟩ ⟨0, 0⟩ 1 0 ⟨0, 0⟩).pos -
      (Ball.mk ⟨0, 0⟩ ⟨0, 0⟩ 1 0 ⟨0, 0⟩).prev_pos).lengthSq < 1e-8 := by
    norm_num [Vec2.lengthSq, Vec2.dot]
  have h3 : ¬ 0 < ((Ball.mk ⟨0, 0⟩ ⟨0, 0⟩ 1 0 ⟨0, 0⟩).pos -
      (⟨⟨0, 0⟩, 2, 1 / 2⟩ : CircleObstacle).pos).length := by
    show ¬ 0 < ((⟨0, 0⟩ : Vec2) - ⟨0, 0⟩).length
    rw [Vec2.sub_self', Vec2.length_zero]
    norm_num
  have h4 : ¬ ((Ball.mk ⟨10, 0⟩ ⟨0, 0⟩ 1 0 ⟨0, 0⟩).pos -
      (Ball.mk ⟨10, 0⟩ ⟨0, 0⟩ 1 0 ⟨0, 0⟩).prev_pos).lengthSq < 1e-8 := by
    norm_num [Vec2.lengthSq, Vec2.dot]
  have h5 : qdisc ⟨⟨5, 100⟩, 1, 1 / 2⟩ ⟨⟨10, 0⟩, ⟨0, 0⟩, 1, 0, ⟨0, 0⟩⟩ < 0 := by
    rw [qdisc_expand,
      show qa ⟨⟨5, 100⟩, 1, 1 / 2⟩ ⟨⟨10, 0⟩, ⟨0, 0⟩, 1, 0, ⟨0, 0⟩⟩ = 100
        from by norm_num [qa, Vec2.dot],
      show qb ⟨⟨5, 100⟩, 1, 1 / 2⟩ ⟨⟨10, 0⟩, ⟨0, 0⟩, 1, 0, ⟨0, 0⟩⟩ = -100
        from by norm_num [qb, Vec2.dot],
      show qc ⟨⟨5, 100⟩, 1, 1 / 2⟩ ⟨⟨10, 0⟩, ⟨0, 0⟩, 1, 0, ⟨0, 0⟩⟩ = 10021
        from by norm_num [qc, Vec2.dot]]
    norm_num
  exact ⟨h1, h2, h3, h4, h5,
    degeneracy_handling ⟨1, 2⟩ ⟨3, 4⟩ ⟨⟨5, 0⟩, ⟨0, 0⟩, 1, 0, ⟨5, 0⟩⟩
      ⟨⟨0, 0⟩, ⟨0, 0⟩, 1, 0, ⟨0, 0⟩⟩ ⟨⟨10, 0⟩, ⟨0, 0⟩, 1, 0, ⟨0, 0⟩⟩ (3 / 5)
      (1 / 60) (⟨0, 0⟩, ⟨10, 0⟩) [] ⟨⟨5, 100⟩, 1, 1 / 2⟩ ⟨⟨0, 0⟩, 2, 1 / 2⟩
      h1 h2 h3 h4 h5⟩

/-! ### Claim C9 -/

/-- C9: the code performs no validation at all: `Ball.update` accepts a
non-positive `dt` on a ball constructed with a negative radius and silently
integrates — here the damping step even doubles the speed — and
`handle_polygon_collision` processes a degenerate 2-vertex boundary without
complaint.  No error is raised anywhere (every embedded operation is total),
contradicting the required fail-fast behaviour. -/
theorem no_validation_on_invalid_input :
    (Ball.update ⟨⟨0, 0⟩, ⟨1, 0⟩, -1, 0, ⟨0, 0⟩⟩ (-1)).pos = ⟨-1, 0⟩ ∧
    (Ball.update ⟨⟨0, 0⟩, ⟨1, 0⟩, -1, 0, ⟨0, 0⟩⟩ (-1)).velocity = ⟨2, 0⟩ ∧
    handle_polygon_collision ⟨⟨5, 5⟩, ⟨0, 0⟩, 1, 0, ⟨5, 5⟩⟩ [⟨0, 0⟩, ⟨10, 0⟩]
        (3 / 5) = (⟨⟨5, 5⟩, ⟨0, 0⟩, 1, 0, ⟨5, 5⟩⟩, false) := by
  have hfar :
      ¬ edgeHits ⟨⟨5, 5⟩, ⟨0, 0⟩, 1, 0, ⟨5, 5⟩⟩ ((⟨0, 0⟩, ⟨10, 0⟩) : Vec2 × Vec2) := by
    intro hhit
    have hnear : get_nearest_point_on_segment ⟨5, 5⟩ ⟨0, 0⟩ ⟨10, 0⟩ = ⟨5, 0⟩ := by
      rw [get_nearest_point_on_segment]
      norm_num [Vec2.lengthSq, Vec2.dot, Vec2.ext_iff, min_def, max_def]
    have hlen : ((⟨5, 5⟩ : Vec2) -
        get_nearest_point_on_segment ⟨5, 5⟩ ⟨0, 0⟩ ⟨10, 0⟩).length = 5 := by
      rw [hnear, show (⟨5, 5⟩ : Vec2) - ⟨5, 0⟩ = ⟨0, 5⟩ from by
        simp [Vec2.ext_iff]]
      exact Vec2.length_eval (by norm_num)
        (by norm_num [Vec2.lengthSq, Vec2.dot])
    have := hhit.1
    rw [show ((Ball.mk ⟨5, 5⟩ ⟨0, 0⟩ 1 0 ⟨5, 5⟩).pos -
        get_nearest_point_on_segment (Ball.mk ⟨5, 5⟩ ⟨0, 0⟩ 1 0 ⟨5, 5⟩).pos
          (⟨0, 0⟩ : Vec2) ⟨10, 0⟩).length = 5 from hlen] at this
    norm_num at this
  refine ⟨?_, ?_, ?_⟩
  · show (⟨0, 0⟩ : Vec2) + (-1 : ℝ) • ⟨1, 0⟩ = ⟨-1, 0⟩
    simp [Vec2.ext_iff]
  · show (if (((1:ℝ) - (1 - 0) * (-1)) • (⟨1, 0⟩ : Vec2)).length < 0.1 then
        (⟨0, 0⟩ : Vec2)
      else ((1:ℝ) - (1 - 0) * (-1)) • (⟨1, 0⟩ : Vec2)) = ⟨2, 0⟩
    rw [show ((1:ℝ) - (1 - 0) * (-1)) • (⟨1, 0⟩ : Vec2) = ⟨2, 0⟩ from by
      simp [Vec2.ext_iff]
      norm_num]
    rw [if_neg (by
      rw [Vec2.length_eval (by norm_num : (0:ℝ) ≤ 2)
        (by norm_num [Vec2.lengthSq, Vec2.dot] :
          (Vec2.mk 2 0).lengthSq = 2 * 2)]
      norm_num)]
  · refine handleEdges_of_no_hit _ _ _ ?_
    intro e he
    rw [show polygonEdges [(⟨0, 0⟩ : Vec2), ⟨10, 0⟩] =
        [((⟨0, 0⟩ : Vec2), (⟨10, 0⟩ : Vec2)), (⟨10, 0⟩, ⟨0, 0⟩)] from rfl] at he
    fin_cases he
    · exact hfar
    · intro hhit
      have hnear : get_nearest_point_on_segment ⟨5, 5⟩ ⟨10, 0⟩ ⟨0, 0⟩ = ⟨5, 0⟩ := by
        rw [get_nearest_point_on_segment]
        norm_num [Vec2.lengthSq, Vec2.dot, Vec2.ext_iff, min_def, max_def]
      have hlen : ((⟨5, 5⟩ : Vec2) -
          get_nearest_point_on_segment ⟨5, 5⟩ ⟨10, 0⟩ ⟨0, 0⟩).length = 5 := by
        rw [hnear, show (⟨5, 5⟩ : Vec2) - ⟨5, 0⟩ = ⟨0, 5⟩ from by
          simp [Vec2.ext_iff]]
        exact Vec2.length_eval (by norm_num)
          (by norm_num [Vec2.lengthSq, Vec2.dot])
      have := hhit.1
      rw [show ((Ball.mk ⟨5, 5⟩ ⟨0, 0⟩ 1 0 ⟨5, 5⟩).pos -
          get_nearest_point_on_segment (Ball.mk ⟨5, 5⟩ ⟨0, 0⟩ 1 0 ⟨5, 5⟩).pos
            (⟨10, 0⟩ : Vec2) ⟨0, 0⟩).length = 5 from hlen] at this
      norm_num at this

/-! ### Claim C4 -/

/-- C4: for every `dt > 0`, `Ball.update` first sets the previous position to
the current position, then adds `velocity * dt` to the position, then
multiplies the velocity by `1 - (1 - friction) * dt`, and finally snaps the
velocity to exactly zero whenever its magnitude falls below `0.1`. -/
theorem ball_update_integrates (b : Ball) (dt : ℝ) (hdt : 0 < dt) :
    (b.update dt).prev_pos = b.pos ∧
    (b.update dt).pos = b.pos + dt • b.velocity ∧
    (b.update dt).velocity =
      (if ((1 - (1 - b.friction) * dt) • b.velocity).length < 0.1 then (⟨0, 0⟩ : Vec2)
       else (1 - (1 - b.friction) * dt) • b.velocity) :=
  ⟨rfl, rfl, rfl⟩

/-- Witness for C4 at a concrete ball and `dt = 1`. -/
theorem ball_update_integrates_witness :
    (0:ℝ) < 1 ∧
    ((Ball.update ⟨⟨0, 0⟩, ⟨1, 0⟩, 1, 0, ⟨0, 0⟩⟩ 1).prev_pos =
        (Ball.mk ⟨0, 0⟩ ⟨1, 0⟩ 1 0 ⟨0, 0⟩).pos ∧
     (Ball.update ⟨⟨0, 0⟩, ⟨1, 0⟩, 1, 0, ⟨0, 0⟩⟩ 1).pos =
        (Ball.mk ⟨0, 0⟩ ⟨1, 0⟩ 1 0 ⟨0, 0⟩).pos +
          (1:ℝ) • (Ball.mk ⟨0, 0⟩ ⟨1, 0⟩ 1 0 ⟨0, 0⟩).velocity ∧
     (Ball.update ⟨⟨0, 0⟩, ⟨1, 0⟩, 1, 0, ⟨0, 0⟩⟩ 1).velocity =
      (if ((1 - (1 - (Ball.mk ⟨0, 0⟩ ⟨1, 0⟩ 1 0 ⟨0, 0⟩).friction) * 1) •
            (Ball.mk ⟨0, 0⟩ ⟨1, 0⟩ 1 0 ⟨0, 0⟩).velocity).length < 0.1 then
          (⟨0, 0⟩ : Vec2)
        else (1 - (1 - (Ball.mk ⟨0, 0⟩ ⟨1, 0⟩ 1 0 ⟨0, 0⟩).friction) * 1) •
            (Ball.mk ⟨0, 0⟩ ⟨1, 0⟩ 1 0 ⟨0, 0⟩).velocity)) :=
  ⟨by norm_num, ball_update_integrates ⟨⟨0, 0⟩, ⟨1, 0⟩, 1, 0, ⟨0, 0⟩⟩ 1 (by norm_num)⟩

/-! ### Claim C10 -/

/-- C10: `handle_polygon_collision` and `CircleObstacle.collide` mutate at
most the ball's `pos` and `velocity`: `prev_pos`, `radius` and `friction` are
unchanged by both calls (the obstacle itself is immutable in the model, as in
the source, which never writes to `self` in `collide`). -/
theorem collision_frame_effect (b : Ball) (pts : List Vec2) (k : ℝ)
    (o : CircleObstacle) (dt : ℝ) :
    ((handle_polygon_collision b pts k).1.prev_pos = b.prev_pos ∧
     (handle_polygon_collision b pts k).1.radius = b.radius ∧
     (handle_polygon_collision b pts k).1.friction = b.friction) ∧
    ((o.collide b dt).prev_pos = b.prev_pos ∧
     (o.collide b dt).radius = b.radius ∧
     (o.collide b dt).friction = b.friction) := by
  constructor
  · exact handleEdges_frame b k (polygonEdges pts)
  · rw [CircleObstacle.collide]
    by_cases h1 : (b.pos - b.prev_pos).lengthSq < 1e-8
    · rw [if_pos h1]
      by_cases h2 : (b.pos - o.pos).length < o.radius + b.radius
      · rw [if_pos h2]
        by_cases h3 : 0 < (b.pos - o.pos).length
        · rw [if_pos h3]; exact ⟨rfl, rfl, rfl⟩
        · rw [if_neg h3]; exact ⟨rfl, rfl, rfl⟩
      · rw [if_neg h2]; exact ⟨rfl, rfl, rfl⟩
    · rw [if_neg h1]
      by_cases h2 : qdisc o b < 0
      · rw [if_pos h2]; exact ⟨rfl, rfl, rfl⟩
      · rw [if_neg h2]
        by_cases h3 : 0 ≤ (if 0 ≤ qt1 o b ∧ qt1 o b ≤ 1 then qt1 o b
            else if 0 ≤ qt2 o b ∧ qt2 o b ≤ 1 then qt2 o b else -1) ∧
            (if 0 ≤ qt1 o b ∧ qt1 o b ≤ 1 then qt1 o b
            else if 0 ≤ qt2 o b ∧ qt2 o b ≤ 1 then qt2 o b else -1) ≤ 1
        · rw [if_pos h3]; exact ⟨rfl, rfl, rfl⟩
        · rw [if_neg h3]; exact ⟨rfl, rfl, rfl⟩

/-! ### Claim C3 -/

/-- C3: `handle_polygon_collision` iterates the polygon's edges in order with
wraparound; for the first edge whose clamped-projection nearest point lies
strictly closer than the ball's radius (skipping edges at exactly zero
distance) it repositions the ball to `nearest + normal * radius`,
reflects-and-damps the velocity (`resolveEdge`), and returns `true`
immediately; if no edge is that close it returns `false` with the ball
unchanged. -/
theorem polygon_first_hit_resolution (b : Ball) (pts : List Vec2) (k : ℝ) :
    ((∀ e ∈ polygonEdges pts, ¬ edgeHits b e) →
      handle_polygon_collision b pts k = (b, false)) ∧
    (∀ (pre : List (Vec2 × Vec2)) (e : Vec2 × Vec2) (post : List (Vec2 × Vec2)),
      polygonEdges pts = pre ++ e :: post →
      (∀ e' ∈ pre, ¬ edgeHits b e') → edgeHits b e →
      handle_polygon_collision b pts k = (resolveEdge b k e, true)) := by
  constructor
  · intro h
    exact handleEdges_of_no_hit b k _ h
  · intro pre e post hsplit hpre he
    rw [handle_polygon_collision, hsplit]
    exact handleEdges_first_hit b k pre e post hpre he

/-- Witness for C3: a concrete square course where the first edge is hit by
the ball and resolved. -/
theorem polygon_first_hit_resolution_witness :
    handle_polygon_collision ⟨⟨5, 1⟩, ⟨0, 0⟩, 2, 0, ⟨5, 1⟩⟩
        [⟨0, 0⟩, ⟨10, 0⟩, ⟨10, 10⟩, ⟨0, 10⟩] (1 / 2) =
      (resolveEdge ⟨⟨5, 1⟩, ⟨0, 0⟩, 2, 0, ⟨5, 1⟩⟩ (1 / 2) (⟨0, 0⟩, ⟨10, 0⟩),
        true) :=
  (polygon_first_hit_resolution ⟨⟨5, 1⟩, ⟨0, 0⟩, 2, 0, ⟨5, 1⟩⟩
      [⟨0, 0⟩, ⟨10, 0⟩, ⟨10, 10⟩, ⟨0, 10⟩] (1 / 2)).2
    [] (⟨0, 0⟩, ⟨10, 0⟩)
    [(⟨10, 0⟩, ⟨10, 10⟩), (⟨10, 10⟩, ⟨0, 10⟩), (⟨0, 10⟩, ⟨0, 0⟩)]
    rfl (by intro e' h; exact absurd h (List.not_mem_nil e')) square_hit

end

end Minigolf
